import Mathlib

/-!
Verification development for the melt (pay-outgoing-invoice) engine of the
`cdk-bitcredit` mint, shallow-embedded from `src/crates/cdk/src/mint/melt.rs`.
Collaborating pieces that are part of the repository but outside the embedded
source fragment (the persistence port, the `Amount` arithmetic helpers, the
`MeltOptions` tagged variants, unit conversion) are modelled from the
specification; each such definition carries a `Modelled from the spec:` note.
-/

set_option linter.unusedVariables false

deriving instance DecidableEq for Except

namespace CdkMelt

/-! Section: Data model -/

/-- Melt-quote states (`MeltQuoteState`, nut05). -/
inductive MeltQuoteState
  | Unpaid
  | Pending
  | Paid
  | Failed
  | Unknown
  deriving DecidableEq, Repr

/-- Proof states (`State`, nut07). -/
inductive ProofState
  | Unspent
  | Pending
  | Spent
  | Reserved
  deriving DecidableEq, Repr

/-- Modelled from the spec: enumerated currency units (§3): `Sat`, `Msat` and
opaque custom units. -/
inductive CurrencyUnit
  | Sat
  | Msat
  | Custom (tag : Nat)
  deriving DecidableEq, Repr

/-- Modelled from the spec: amounts are non-negative integers in a unit (§3). -/
abbrev Amount := Nat

/-- The melt quote record (`MeltQuote`). `invoiceAmountMsat` stands for the
msat amount embedded in the quote's `request` invoice (the result of
`invoice.amount_milli_satoshis()` on the stored request string). -/
structure MeltQuote where
  id : Nat
  amount : Amount
  feeReserve : Amount
  unit : CurrencyUnit
  state : MeltQuoteState
  requestLookupId : Nat
  msatToPay : Option Amount
  invoiceAmountMsat : Option Amount
  expiry : Nat
  deriving DecidableEq, Repr

/-- An input proof as the melt engine consumes it: its unique identifier
`y = H2C(secret)`, its amount and its keyset's unit (§3). -/
structure Proof where
  y : Nat
  amount : Amount
  unit : CurrencyUnit
  deriving DecidableEq, Repr

/-- A blinded message submitted for (change) signing (§3). -/
structure BlindedMessage where
  amount : Amount
  blindedSecret : Nat
  unit : CurrencyUnit
  deriving DecidableEq, Repr

/-- The body of a `MeltRequest`: quote id is implicit (the store below holds the
single quote the request addresses); `sigAll` records whether
`enforce_sig_flag` over the inputs yields `SigAll` (witness payloads are
outside the embedded fragment). -/
structure MeltRequest where
  inputs : List Proof
  outputs : Option (List BlindedMessage)
  sigAll : Bool
  deriving DecidableEq, Repr

/-- A blind signature issued as change: the signed amount and the
blinded secret it answers. -/
structure ChangeSig where
  amount : Amount
  blindedSecret : Nat
  deriving DecidableEq, Repr

/-- The melt response (`MeltQuoteBolt11Response`), restricted to the fields the
melt engine computes. -/
structure MeltQuoteBolt11Response where
  amount : Amount
  paid : Bool
  paymentPreimage : Option Nat
  change : Option (List ChangeSig)
  feeReserve : Amount
  state : MeltQuoteState
  deriving DecidableEq, Repr

/-- Persistence-port errors surfaced to the melt engine
(`cdk_common::database::Error`). -/
inductive DbError
  | Duplicate
  | AttemptUpdateSpentProof
  | Other
  deriving DecidableEq, Repr

/-- Payment-port errors (`cdk_payment::Error`). -/
inductive PayErr
  | InvoiceAlreadyPaid
  | Other
  deriving DecidableEq, Repr

/-- The error taxonomy of the melt engine (`Error`), restricted to the
variants the embedded fragment can produce. -/
inductive Error
  | PendingQuote
  | PaidQuote
  | UnknownPaymentState
  | UnsupportedUnit
  | TransactionUnbalanced (inputs : Amount) (outputs : Amount) (fee : Amount)
  | TokenPending
  | TokenAlreadySpent
  | Database (e : DbError)
  | SigAllUsedInMelt
  | BlindedMessageAlreadySigned
  | MultipleUnits
  | DuplicateInputs
  | UnknownQuote
  | Internal
  | PaymentFailed
  | RequestAlreadyPaid
  | InvoiceAmountUndefined
  | CannotConvertUnits
  | MeltingDisabled
  | InternalMultiPartMeltQuote
  | MppUnitMethodNotSupported
  | AmountlessInvoiceNotSupported
  | AmountOutofLimitRange
  deriving DecidableEq, Repr

/-- A stored proof: its state and the quote id it is bound to, if any. -/
structure ProofEntry where
  state : ProofState
  quoteId : Option Nat
  deriving DecidableEq, Repr

/-- The slice of the durable store the melt engine touches: the melt quote the
request addresses, the proof table keyed by `y`, the blinded secrets that
already carry a stored blind signature, and the keyset fee rate.
`inputFeePpk` — Modelled from the spec: a single keyset `input_fee_ppk`
rate covering the request's inputs (§3, §4.H). -/
structure MintState where
  quote : MeltQuote
  proofDb : List (Nat × ProofEntry)
  signedSecrets : List Nat
  inputFeePpk : Nat
  deriving DecidableEq, Repr

/-! Section: Persistence port (modelled from the spec, §4.B) -/

/-- Look a proof up by its `y`. -/
def lookupProof (db : List (Nat × ProofEntry)) (y : Nat) : Option ProofEntry :=
  (db.find? (fun e => e.1 == y)).map (fun e => e.2)

/-- The effective state of a proof: a proof absent from the store has never
been consumed and is unspent. -/
def proofStateOf (st : MintState) (y : Nat) : ProofState :=
  ((lookupProof st.proofDb y).map ProofEntry.state).getD ProofState.Unspent

/-- Modelled from the spec: `add_proofs(proofs, quote_id?)` (§4.B) — fails with
`AttemptUpdateSpent` if any existing `y` is `Spent`, with `Duplicate` if any
`y` exists; otherwise inserts all in `Unspent` bound to the given quote id. -/
def addProofs (st : MintState) (proofs : List Proof) (quoteId : Option Nat) :
    Except DbError MintState :=
  if proofs.any (fun p =>
      match lookupProof st.proofDb p.y with
      | some e => e.state == ProofState.Spent
      | none => false) then
    Except.error DbError.AttemptUpdateSpentProof
  else if proofs.any (fun p => (lookupProof st.proofDb p.y).isSome) then
    Except.error DbError.Duplicate
  else
    Except.ok { st with
      proofDb := st.proofDb ++ proofs.map (fun p => (p.y, ⟨ProofState.Unspent, quoteId⟩)) }

/-- Rewrite the state of every stored proof whose `y` is listed. -/
def setStates (db : List (Nat × ProofEntry)) (ys : List Nat) (s : ProofState) :
    List (Nat × ProofEntry) :=
  db.map (fun e => if ys.contains e.1 then (e.1, { e.2 with state := s }) else e)

/-- Modelled from the spec: `update_proofs_states(ys, new_state)` (§4.B) — an
all-or-nothing transition that is monotonic: it never overwrites `Spent`. -/
def updateProofsStates (st : MintState) (ys : List Nat) (s : ProofState) :
    Except DbError MintState :=
  if ys.any (fun y =>
      match lookupProof st.proofDb y with
      | some e => e.state == ProofState.Spent && !(s == ProofState.Spent)
      | none => false) then
    Except.error DbError.AttemptUpdateSpentProof
  else
    Except.ok { st with proofDb := setStates st.proofDb ys s }

/-- Modelled from the spec: `remove_proofs(ys, quote_id?)` (§4.B) — removes the
listed proofs that are currently `Pending` or `Reserved`. -/
def removeProofs (st : MintState) (ys : List Nat) : MintState :=
  { st with proofDb := st.proofDb.filter (fun e =>
      !(ys.contains e.1 &&
        (e.2.state == ProofState.Pending || e.2.state == ProofState.Reserved))) }

/-- Modelled from the spec: `check_ys_spendable(ys, target_state)` (§4.B, §4.G
step 4) — asserts none of the listed proofs are `Spent` and none are already in
a conflicting in-flight state, then establishes the requested in-flight state
(the melt engine passes `Pending`, persisting the inputs as `Pending`). -/
def checkYsSpendable (st : MintState) (ys : List Nat) (target : ProofState) :
    Except Error MintState :=
  if ys.any (fun y =>
      ((lookupProof st.proofDb y).map ProofEntry.state) == some ProofState.Spent) then
    Except.error Error.TokenAlreadySpent
  else if ys.any (fun y =>
      ((lookupProof st.proofDb y).map ProofEntry.state) == some ProofState.Pending) then
    Except.error Error.TokenPending
  else
    Except.ok { st with proofDb := setStates st.proofDb ys target }

/-- Modelled from the spec: `get_blind_signatures(blinded_secrets)` (§4.B) —
replay-detection lookup; `some ()` marks a secret that already carries a
stored blind signature. -/
def getBlindSignatures (st : MintState) (secrets : List Nat) : List (Option Unit) :=
  secrets.map (fun s => if st.signedSecrets.contains s then some () else none)

/-- Modelled from the spec: `add_blind_signatures(blinded_secrets, sigs,
quote_id?)` (§4.B) — fails if any secret is already present. -/
def addBlindSignatures (st : MintState) (secrets : List Nat) :
    Except DbError MintState :=
  if secrets.any (fun s => st.signedSecrets.contains s) then
    Except.error DbError.Duplicate
  else
    Except.ok { st with signedSecrets := st.signedSecrets ++ secrets }

/-- Modelled from the spec: `update_melt_quote_state(id, new)` (§4.B) — sets
the quote's state and returns the previous state together with the quote. -/
def updateMeltQuoteState (st : MintState) (s : MeltQuoteState) :
    MeltQuoteState × MeltQuote × MintState :=
  (st.quote.state, { st.quote with state := s },
    { st with quote := { st.quote with state := s } })

/-! Section: Amounts and units (modelled from the spec, §3) -/

/-- Modelled from the spec: `to_unit` (§3) — conversions between `Sat` and
`Msat` are exact (×1000, msat→sat by integer division); equal units convert by
identity; other conversions are rejected. -/
def to_unit (a : Amount) (src dst : CurrencyUnit) : Option Amount :=
  if src == dst then some a
  else
    match src, dst with
    | CurrencyUnit.Sat, CurrencyUnit.Msat => some (a * 1000)
    | CurrencyUnit.Msat, CurrencyUnit.Sat => some (a / 1000)
    | _, _ => none

/-- Modelled from the spec: `Amount::split` — the canonical power-of-two
decomposition of an amount (§3: amounts are powers of two up to a ceiling of
`2^64`), listed from the largest piece down. -/
def splitAmount (a : Amount) : List Amount :=
  (List.range 64).reverse.filterMap (fun b =>
    if a.testBit b then some (2 ^ b) else none)

/-- Insert into a descending-ordered list (helper for `sortDesc`). -/
def insertDesc (a : Amount) : List Amount → List Amount
  | [] => [a]
  | b :: t => if b ≤ a then a :: b :: t else b :: insertDesc a t

/-- The melt engine's `amounts.sort_by(|a, b| b.cmp(a))`: sort descending. -/
def sortDesc : List Amount → List Amount
  | [] => []
  | a :: t => insertDesc a (sortDesc t)

/-- The total amount of a proof list (`proofs_amount`). -/
def proofsAmount (inputs : List Proof) : Amount :=
  (inputs.map Proof.amount).sum

/-- Modelled from the spec: `get_proofs_fee` — `ceil(Σ input_fee_ppk / 1000)`
over the inputs (§4.H), with a single keyset rate `ppk`. -/
def getProofsFee (ppk : Nat) (inputs : List Proof) : Amount :=
  (inputs.length * ppk + 999) / 1000

/-! Section: Verification engine (modelled from the spec, §4.E) -/

/-- Modelled from the spec: `verify_inputs` (§4.E) — secrets unique within the
request (`DuplicateInputs`), one unit across the set (`MultipleUnits`);
returns the total amount and the common unit (`none` for an empty set).
Cryptographic proof verification is outside the embedded fragment. -/
def verifyInputs (inputs : List Proof) : Except Error (Amount × Option CurrencyUnit) :=
  match inputs with
  | [] => Except.ok (0, none)
  | p :: _ =>
    if !(inputs.map Proof.y).Nodup then Except.error Error.DuplicateInputs
    else if !(inputs.all (fun q => q.unit == p.unit)) then Except.error Error.MultipleUnits
    else Except.ok (proofsAmount inputs, some p.unit)

/-- Modelled from the spec: `verify_outputs` (§4.E) — outputs share one unit
and each `blinded_secret` is unseen (no stored blind signature); returns the
common unit. -/
def verifyOutputs (st : MintState) (outs : List BlindedMessage) :
    Except Error (Option CurrencyUnit) :=
  match outs with
  | [] => Except.ok none
  | o :: _ =>
    if !(outs.all (fun q => q.unit == o.unit)) then Except.error Error.MultipleUnits
    else if (getBlindSignatures st (outs.map (fun q => q.blindedSecret))).any Option.isSome then
      Except.error Error.BlindedMessageAlreadySigned
    else Except.ok (some o.unit)

/-! Section: The melt engine (embedded from `src/crates/cdk/src/mint/melt.rs`) -/

/-- Embeds `verify_melt_request` (melt.rs 296-383): CAS-advance the quote to
`Pending` (rejecting `Pending`/`Paid`/`Unknown` previous states), verify the
inputs, require `input_amount ≥ quote.amount + fee_reserve + fee`, persist the
inputs via `add_proofs(inputs, None)` mapping the database errors, establish
the `Pending` in-flight state, reject `SigAll`, and verify any outputs.
Returns the quote on success; the returned store reflects every database
write performed before the outcome was decided. -/
def verify_melt_request (st0 : MintState) (req : MeltRequest) :
    Except Error MeltQuote × MintState :=
  let r := updateMeltQuoteState st0 MeltQuoteState.Pending
  let quote := r.2.1
  let st := r.2.2
  match r.1 with
  | MeltQuoteState.Pending => (Except.error Error.PendingQuote, st)
  | MeltQuoteState.Paid => (Except.error Error.PaidQuote, st)
  | MeltQuoteState.Unknown => (Except.error Error.UnknownPaymentState, st)
  | _ =>
    match verifyInputs req.inputs with
    | Except.error e => (Except.error e, st)
    | Except.ok (inputAmount, inputUnit) =>
      if inputUnit.isNone then (Except.error Error.UnsupportedUnit, st)
      else
        let fee := getProofsFee st.inputFeePpk req.inputs
        if inputAmount < quote.amount + quote.feeReserve + fee then
          (Except.error
            (Error.TransactionUnbalanced inputAmount quote.amount (fee + quote.feeReserve)), st)
        else
          match addProofs st req.inputs none with
          | Except.error DbError.Duplicate => (Except.error Error.TokenPending, st)
          | Except.error DbError.AttemptUpdateSpentProof =>
            (Except.error Error.TokenAlreadySpent, st)
          | Except.error e => (Except.error (Error.Database e), st)
          | Except.ok st1 =>
            match checkYsSpendable st1 (req.inputs.map Proof.y) ProofState.Pending with
            | Except.error e => (Except.error e, st1)
            | Except.ok st2 =>
              if req.sigAll then (Except.error Error.SigAllUsedInMelt, st2)
              else
                match req.outputs with
                | none => (Except.ok quote, st2)
                | some outs =>
                  if outs.isEmpty then (Except.ok quote, st2)
                  else
                    match verifyOutputs st2 outs with
                    | Except.error e => (Except.error e, st2)
                    | Except.ok outUnit =>
                      if inputUnit == outUnit then (Except.ok quote, st2)
                      else (Except.error Error.UnsupportedUnit, st2)

/-- Embeds `process_unpaid_melt` (melt.rs 390-412): remove the request's input proofs
from the store and set the quote's state back to `Unpaid`. -/
def process_unpaid_melt (st : MintState) (req : MeltRequest) : MintState :=
  let st1 := removeProofs st (req.inputs.map Proof.y)
  (updateMeltQuoteState st1 MeltQuoteState.Unpaid).2.2

/-- Embeds `check_melt_expected_ln_fees` (melt.rs 239-292): derive the partial amount
for a multi-part intent (invoice amount strictly above the quote amount) and
require `amount_to_pay + fee_reserve ≤ inputs_amount`. -/
def check_melt_expected_ln_fees (quote : MeltQuote) (req : MeltRequest) :
    Except Error (Option Amount) :=
  match to_unit quote.amount quote.unit CurrencyUnit.Msat with
  | none => Except.error Error.CannotConvertUnits
  | some quoteMsats =>
    match (match quote.invoiceAmountMsat with
           | some amt => Except.ok amt
           | none =>
             match quote.msatToPay with
             | some v => Except.ok v
             | none => Except.error Error.InvoiceAmountUndefined) with
    | Except.error e => Except.error e
    | Except.ok invoiceAmountMsats =>
      match (if quoteMsats < invoiceAmountMsats then
               match to_unit quoteMsats CurrencyUnit.Msat quote.unit with
               | some a => Except.ok (some a)
               | none => Except.error Error.UnsupportedUnit
             else Except.ok none) with
      | Except.error e => Except.error e
      | Except.ok partAmt =>
        match (match partAmt with
               | some a => Except.ok a
               | none =>
                 match to_unit invoiceAmountMsats CurrencyUnit.Msat quote.unit with
                 | some a => Except.ok a
                 | none => Except.error Error.UnsupportedUnit) with
        | Except.error e => Except.error e
        | Except.ok amountToPay =>
          if proofsAmount req.inputs < amountToPay + quote.feeReserve then
            Except.error (Error.TransactionUnbalanced
              (proofsAmount req.inputs) amountToPay quote.feeReserve)
          else Except.ok partAmt

/-- Embeds `process_melt_request` (melt.rs 627-741): transition the inputs to
`Spent`, the quote to `Paid`, then handle change: when the input total
strictly exceeds `total_spent` and the wallet supplied outputs, reject
previously-signed blinded secrets, compute
`change_target = inputs − total_spent − fee`, split it into power-of-two
pieces (reverse-sorting them when fewer outputs than pieces were supplied),
sign one piece per supplied output, and store the signatures. -/
def process_melt_request (st0 : MintState) (req : MeltRequest)
    (paymentPreimage : Option Nat) (totalSpent : Amount) :
    Except Error MeltQuoteBolt11Response × MintState :=
  let quote := st0.quote
  match updateProofsStates st0 (req.inputs.map Proof.y) ProofState.Spent with
  | Except.error e => (Except.error (Error.Database e), st0)
  | Except.ok st1 =>
    let st2 := (updateMeltQuoteState st1 MeltQuoteState.Paid).2.2
    let withChange : Except Error (Option (List ChangeSig) × MintState) :=
      if totalSpent < proofsAmount req.inputs then
        match req.outputs with
        | none => Except.ok (none, st2)
        | some outputs =>
          if (getBlindSignatures st2 (outputs.map (fun b => b.blindedSecret))).any
              Option.isSome then
            Except.error Error.BlindedMessageAlreadySigned
          else
            let fee := getProofsFee st2.inputFeePpk req.inputs
            let changeTarget := proofsAmount req.inputs - totalSpent - fee
            let amounts0 := splitAmount changeTarget
            let amounts :=
              if outputs.length < amounts0.length then sortDesc amounts0 else amounts0
            let changeSigs := (amounts.zip outputs).map
              (fun p => ChangeSig.mk p.1 p.2.blindedSecret)
            match addBlindSignatures st2
                ((outputs.take changeSigs.length).map (fun o => o.blindedSecret)) with
            | Except.error e => Except.error (Error.Database e)
            | Except.ok st3 => Except.ok (some changeSigs, st3)
      else Except.ok (none, st2)
    match withChange with
    | Except.error e => (Except.error e, st2)
    | Except.ok (change, st3) =>
      (Except.ok
        { amount := quote.amount
          paid := true
          paymentPreimage := paymentPreimage
          change := change
          feeReserve := quote.feeReserve
          state := MeltQuoteState.Paid }, st3)

/-! Section: The payment attempt (melt.rs 516-561) -/

/-- Shape of the `make_payment` response (§4.C). -/
structure MakePaymentResponse where
  status : MeltQuoteState
  totalSpent : Amount
  unit : CurrencyUnit
  paymentProof : Option Nat
  paymentLookupId : Nat
  deriving DecidableEq, Repr

/-- The Lightning backend for the quote's `(unit, bolt11)` key, with the
responses it would give this call (§4.C): `checkOutgoing = none` stands for
`check_outgoing_payment` itself failing. -/
structure LnBackend where
  makePayment : Except PayErr MakePaymentResponse
  checkOutgoing : Option MakePaymentResponse
  deriving DecidableEq, Repr

/-- How the payment attempt of `melt_bolt11` resolves. -/
inductive PayOutcome
  | alreadyPaid
  | stuck
  | resolved (pre : MakePaymentResponse)
  deriving DecidableEq, Repr

/-- The payment attempt (melt.rs 516-561): on `Unknown`/`Failed` from
`make_payment`, or on a backend error other than `InvoiceAlreadyPaid`, call
`check_outgoing_payment`; a failing check, or a check that reports `Paid`
after the attempt did not, leaves the proofs stuck (`Internal`);
`InvoiceAlreadyPaid` triggers the rollback path. -/
def payOutcome (ln : LnBackend) : PayOutcome :=
  match ln.makePayment with
  | Except.ok pay =>
    if pay.status == MeltQuoteState.Unknown || pay.status == MeltQuoteState.Failed then
      match ln.checkOutgoing with
      | none => PayOutcome.stuck
      | some check =>
        if check.status == MeltQuoteState.Paid then PayOutcome.stuck
        else PayOutcome.resolved check
    else PayOutcome.resolved pay
  | Except.error PayErr.InvoiceAlreadyPaid => PayOutcome.alreadyPaid
  | Except.error PayErr.Other =>
    match ln.checkOutgoing with
    | none => PayOutcome.stuck
    | some check =>
      if check.status == MeltQuoteState.Paid then PayOutcome.stuck
      else PayOutcome.resolved check

/-- The process-local environment of a `melt_bolt11` call: the backend for the
quote's payment key (`none` when `self.ln.get(..)` finds none) and the outcome
of `handle_internal_melt_mint` — Modelled from the spec: the internal
settlement shortcut (§4.J) returns the settled amount when the melt's invoice
is a local mint quote, `none` otherwise, or an error. -/
structure MeltEnv where
  ln : Option LnBackend
  internalMelt : Except Error (Option Amount)
  deriving DecidableEq, Repr

/-- The external-payment leg of `melt_bolt11` (melt.rs 476-621): check the
expected Lightning fees for bitcoin units, look up the backend, resolve the
payment attempt, and act on the final status — `Paid` finalizes via
`process_melt_request` (updating the stored lookup id first when the backend
substituted one, and converting `total_spent` to the quote unit with
`unwrap_or_default`), `Pending` returns `PendingQuote` leaving the store
untouched, anything else rolls back and returns `PaymentFailed`. -/
def melt_external (env : MeltEnv) (st : MintState) (req : MeltRequest)
    (quote : MeltQuote) : Except Error MeltQuoteBolt11Response × MintState :=
  match (if quote.unit == CurrencyUnit.Sat || quote.unit == CurrencyUnit.Msat then
           check_melt_expected_ln_fees quote req
         else Except.ok none) with
  | Except.error _ => (Except.error Error.Internal, process_unpaid_melt st req)
  | Except.ok _partAmt =>
    match env.ln with
    | none => (Except.error Error.UnsupportedUnit, process_unpaid_melt st req)
    | some ln =>
      match payOutcome ln with
      | PayOutcome.alreadyPaid =>
        (Except.error Error.RequestAlreadyPaid, process_unpaid_melt st req)
      | PayOutcome.stuck => (Except.error Error.Internal, st)
      | PayOutcome.resolved pre =>
        match pre.status with
        | MeltQuoteState.Paid =>
          let amountSpent := (to_unit pre.totalSpent pre.unit quote.unit).getD 0
          let st1 :=
            if !(pre.paymentLookupId == quote.requestLookupId) then
              { st with quote := { quote with requestLookupId := pre.paymentLookupId } }
            else st
          process_melt_request st1 req pre.paymentProof amountSpent
        | MeltQuoteState.Pending => (Except.error Error.PendingQuote, st)
        | _ => (Except.error Error.PaymentFailed, process_unpaid_melt st req)

/-- Embeds `melt_bolt11` (melt.rs 416-622): verify the request (running
`process_unpaid_melt` on any verification error before surfacing it), try the
internal settlement shortcut, and settle either internally (no preimage, the
settled amount spent) or through the external payment leg. -/
def melt_bolt11 (env : MeltEnv) (st0 : MintState) (req : MeltRequest) :
    Except Error MeltQuoteBolt11Response × MintState :=
  match verify_melt_request st0 req with
  | (Except.error err, st) => (Except.error err, process_unpaid_melt st req)
  | (Except.ok quote, st) =>
    match env.internalMelt with
    | Except.error err => (Except.error err, process_unpaid_melt st req)
    | Except.ok (some amountSpent) => process_melt_request st req none amountSpent
    | Except.ok none => melt_external env st req quote

/-! Section: Melt-quote creation (melt.rs 27-180) -/

/-- Modelled from the spec: the `MeltOptions` tagged variants (§9): `Mpp` and
`Amountless`, each carrying an msat amount (`None` is the absent option). -/
inductive MeltOptions
  | mpp (amountMsat : Amount)
  | amountless (amountMsat : Amount)
  deriving DecidableEq, Repr

/-- Modelled from the spec: `MeltOptions::amount_msat` — the msat amount the
option carries. -/
def MeltOptions.amountMsat : MeltOptions → Amount
  | MeltOptions.mpp a => a
  | MeltOptions.amountless a => a

/-- The body of a `MeltQuoteBolt11Request`: the invoice (identified by a tag,
with its embedded msat amount when present), the requested unit and the
options. -/
structure MeltQuoteRequest where
  request : Nat
  invoiceAmountMsat : Option Amount
  unit : CurrencyUnit
  options : Option MeltOptions
  deriving DecidableEq, Repr

/-- Modelled from the spec: `MeltQuoteBolt11Request::amount_msat` — the
options' msat amount when options are given, otherwise the invoice's embedded
amount; an amountless invoice without options is rejected. -/
def requestAmountMsat (r : MeltQuoteRequest) : Except Error Amount :=
  match r.options with
  | some o => Except.ok o.amountMsat
  | none =>
    match r.invoiceAmountMsat with
    | some a => Except.ok a
    | none => Except.error Error.InvoiceAmountUndefined

/-- The mint settings consulted by `check_melt_request_acceptable`
(melt.rs 27-96): the nut05 switches for the `(unit, bolt11)` pair, the nut15
MPP table, and whether the store holds a mint quote with the same invoice. -/
structure MeltSettings where
  disabled : Bool
  unitMethodSupported : Bool
  amountless : Bool
  mppSupported : Bool
  minAmount : Option Amount
  maxAmount : Option Amount
  mintQuoteWithSameRequest : Bool
  deriving DecidableEq, Repr

/-- The limit check closing `check_melt_request_acceptable` (melt.rs 78-95). -/
def checkLimits (s : MeltSettings) (amount : Amount) : Except Error Unit :=
  let isAboveMax := match s.maxAmount with
    | some mx => decide (mx < amount)
    | none => false
  let isBelowMin := match s.minAmount with
    | some mn => decide (amount < mn)
    | none => false
  if isAboveMax || isBelowMin then Except.error Error.AmountOutofLimitRange
  else Except.ok ()

/-- Embeds `check_melt_request_acceptable` (melt.rs 27-96): melting enabled, the
`(unit, method)` pair supported; under `Mpp` options reject when a local mint
quote shares the invoice (no internal multi-part melt) or MPP is not
advertised; under `Amountless` options require amountless support; finally
check the amount limits. -/
def check_melt_request_acceptable (s : MeltSettings) (amount : Amount)
    (options : Option MeltOptions) : Except Error Unit :=
  if s.disabled then Except.error Error.MeltingDisabled
  else if !s.unitMethodSupported then Except.error Error.UnsupportedUnit
  else
    match options with
    | some (MeltOptions.mpp _) =>
      if s.mintQuoteWithSameRequest then Except.error Error.InternalMultiPartMeltQuote
      else if !s.mppSupported then Except.error Error.MppUnitMethodNotSupported
      else checkLimits s amount
    | some (MeltOptions.amountless _) =>
      if !s.amountless then Except.error Error.AmountlessInvoiceNotSupported
      else checkLimits s amount
    | none => checkLimits s amount

/-- The payment port's quote for an outgoing payment (§4.C). -/
structure PaymentQuoteResponse where
  amount : Amount
  fee : Amount
  requestLookupId : Nat
  deriving DecidableEq, Repr

/-- The environment of a `get_melt_bolt11_quote` call: the settings, whether a
backend exists for the `(unit, bolt11)` key, the backend's payment quote
(`none` when `get_payment_quote` fails), the quote TTL, the clock and the
fresh quote id. -/
structure QuoteEnv where
  settings : MeltSettings
  lnAvailable : Bool
  paymentQuote : Option PaymentQuoteResponse
  meltTtl : Nat
  now : Nat
  newId : Nat
  deriving DecidableEq, Repr

/-- Embeds `get_melt_bolt11_quote` (melt.rs 100-180): derive the request's msat
amount, convert it to the quote unit, run the acceptability checks, obtain the
backend's payment quote, and build the melt quote — `Unpaid`, with
`msat_to_pay` set from the options exactly when options were given. A quote is
persisted (`add_melt_quote`) exactly when the call returns `ok`; every error
leaves the store without a new melt quote. -/
def get_melt_bolt11_quote (env : QuoteEnv) (r : MeltQuoteRequest) :
    Except Error MeltQuote :=
  match requestAmountMsat r with
  | Except.error e => Except.error e
  | Except.ok amountMsats =>
    match to_unit amountMsats CurrencyUnit.Msat r.unit with
    | none => Except.error Error.CannotConvertUnits
    | some amountQuoteUnit =>
      match check_melt_request_acceptable env.settings amountQuoteUnit r.options with
      | Except.error e => Except.error e
      | Except.ok _ =>
        if !env.lnAvailable then Except.error Error.UnsupportedUnit
        else
          match env.paymentQuote with
          | none => Except.error Error.UnsupportedUnit
          | some pq =>
            Except.ok
              { id := env.newId
                amount := pq.amount
                feeReserve := pq.fee
                unit := r.unit
                state := MeltQuoteState.Unpaid
                requestLookupId := pq.requestLookupId
                msatToPay := r.options.map MeltOptions.amountMsat
                invoiceAmountMsat := r.invoiceAmountMsat
                expiry := env.now + env.meltTtl }

/-- The canonical change denominations of a melt: the power-of-two split of
`input_total − total_spent − fee`, reverse-sorted when fewer outputs than
pieces were supplied (melt.rs 685-703). -/
def changeAmounts (st : MintState) (req : MeltRequest) (spent : Amount)
    (outs : List BlindedMessage) : List Amount :=
  let fee := getProofsFee st.inputFeePpk req.inputs
  let a0 := splitAmount (proofsAmount req.inputs - spent - fee)
  if outs.length < a0.length then sortDesc a0 else a0

/-! Section: Concrete instances used by the evaluation theorems -/

/-- A store whose melt quote is already `Pending` (a concurrent winner is in
flight) and whose input proofs are stored `Pending`. -/
def c1St : MintState :=
  { quote := { id := 7, amount := 4, feeReserve := 1, unit := CurrencyUnit.Sat,
               state := MeltQuoteState.Pending, requestLookupId := 0,
               msatToPay := none, invoiceAmountMsat := some 4000, expiry := 0 }
    proofDb := [(1, ⟨ProofState.Pending, none⟩), (2, ⟨ProofState.Pending, none⟩)]
    signedSecrets := []
    inputFeePpk := 0 }

/-- The losing concurrent melt request on `c1St`. -/
def c1Req : MeltRequest :=
  { inputs := [⟨1, 2, CurrencyUnit.Sat⟩, ⟨2, 3, CurrencyUnit.Sat⟩]
    outputs := none
    sigAll := false }

/-- Environment for the losing call (never consulted: verification fails). -/
def c1Env : MeltEnv := { ln := none, internalMelt := Except.ok none }

/-- A fresh store with an `Unpaid` melt quote for 4 sat plus 1 sat reserve. -/
def c2St : MintState :=
  { quote := { id := 7, amount := 4, feeReserve := 1, unit := CurrencyUnit.Sat,
               state := MeltQuoteState.Unpaid, requestLookupId := 0,
               msatToPay := none, invoiceAmountMsat := some 4000, expiry := 0 }
    proofDb := []
    signedSecrets := []
    inputFeePpk := 0 }

/-- A melt request spending a single 8-sat proof, no change outputs. -/
def c2Req : MeltRequest :=
  { inputs := [⟨1, 8, CurrencyUnit.Sat⟩], outputs := none, sigAll := false }

/-- The `make_payment` response of the `c2` scenario: a definitive `Failed`. -/
def c2Pay : MakePaymentResponse :=
  { status := MeltQuoteState.Failed, totalSpent := 0, unit := CurrencyUnit.Sat,
    paymentProof := none, paymentLookupId := 0 }

/-- The `check_outgoing_payment` response of the `c2` scenario: `Paid`. -/
def c2Chk : MakePaymentResponse :=
  { status := MeltQuoteState.Paid, totalSpent := 5, unit := CurrencyUnit.Sat,
    paymentProof := some 9, paymentLookupId := 0 }

/-- A backend whose `make_payment` reports `Failed` while
`check_outgoing_payment` reports `Paid`. -/
def c2Ln : LnBackend := { makePayment := Except.ok c2Pay, checkOutgoing := some c2Chk }

/-- The environment of the `c2` scenario. -/
def c2Env : MeltEnv := { ln := some c2Ln, internalMelt := Except.ok none }

/-- The quote returned by the successful verification of the `c2` scenario. -/
def c2Quote : MeltQuote :=
  { id := 7, amount := 4, feeReserve := 1, unit := CurrencyUnit.Sat,
    state := MeltQuoteState.Pending, requestLookupId := 0,
    msatToPay := none, invoiceAmountMsat := some 4000, expiry := 0 }

/-- The store after the successful verification of the `c2` scenario. -/
def c2St1 : MintState :=
  { quote := c2Quote
    proofDb := [(1, ⟨ProofState.Pending, none⟩)]
    signedSecrets := []
    inputFeePpk := 0 }

/-- A store after verification: one 10-sat input held `Pending`, keyset fee
rate 1000 ppk (so the request's input fee is 1 sat). -/
def c3St : MintState :=
  { quote := { id := 7, amount := 9, feeReserve := 0, unit := CurrencyUnit.Sat,
               state := MeltQuoteState.Pending, requestLookupId := 0,
               msatToPay := none, invoiceAmountMsat := some 9000, expiry := 0 }
    proofDb := [(1, ⟨ProofState.Pending, none⟩)]
    signedSecrets := []
    inputFeePpk := 1000 }

/-- The finalizing melt request on `c3St`: one 10-sat input, one change
output supplied. -/
def c3Req : MeltRequest :=
  { inputs := [⟨1, 10, CurrencyUnit.Sat⟩]
    outputs := some [⟨0, 5, CurrencyUnit.Sat⟩]
    sigAll := false }

/-- A fresh store with an `Unpaid` melt quote, for exercising a successful
verification. -/
def c6St : MintState :=
  { quote := { id := 7, amount := 4, feeReserve := 1, unit := CurrencyUnit.Sat,
               state := MeltQuoteState.Unpaid, requestLookupId := 0,
               msatToPay := none, invoiceAmountMsat := some 4000, expiry := 0 }
    proofDb := []
    signedSecrets := []
    inputFeePpk := 0 }

/-- A melt request spending a single 8-sat proof on `c6St`. -/
def c6Req : MeltRequest :=
  { inputs := [⟨1, 8, CurrencyUnit.Sat⟩], outputs := none, sigAll := false }

/-- A store holding a `Pending` melt quote after verification, one 10-sat
input held `Pending`, keyset fee rate 1000 ppk. -/
def c3bSt : MintState :=
  { quote := { id := 7, amount := 5, feeReserve := 0, unit := CurrencyUnit.Sat,
               state := MeltQuoteState.Pending, requestLookupId := 0,
               msatToPay := none, invoiceAmountMsat := some 5000, expiry := 0 }
    proofDb := [(1, ⟨ProofState.Pending, none⟩)]
    signedSecrets := []
    inputFeePpk := 1000 }

/-- A finalizing melt request on `c3bSt`: one 10-sat input, one change output. -/
def c3bReq : MeltRequest :=
  { inputs := [⟨1, 10, CurrencyUnit.Sat⟩]
    outputs := some [⟨0, 5, CurrencyUnit.Sat⟩]
    sigAll := false }

/-- The response of `process_melt_request c3bSt c3bReq none 4`: change target
`10 − 4 − 1 = 5` split as `[4, 1]`, one output supplied, so one signature. -/
def c3bResp : MeltQuoteBolt11Response :=
  { amount := 5, paid := true, paymentPreimage := none,
    change := some [⟨4, 5⟩], feeReserve := 0, state := MeltQuoteState.Paid }

/-- The store after `process_melt_request c3bSt c3bReq none 4`. -/
def c3bSt2 : MintState :=
  { quote := { id := 7, amount := 5, feeReserve := 0, unit := CurrencyUnit.Sat,
               state := MeltQuoteState.Paid, requestLookupId := 0,
               msatToPay := none, invoiceAmountMsat := some 5000, expiry := 0 }
    proofDb := [(1, ⟨ProofState.Spent, none⟩)]
    signedSecrets := [5]
    inputFeePpk := 1000 }

/-- A fresh store with an `Unpaid` melt quote for the `c4` scenario. -/
def c4St : MintState :=
  { quote := { id := 7, amount := 4, feeReserve := 1, unit := CurrencyUnit.Sat,
               state := MeltQuoteState.Unpaid, requestLookupId := 0,
               msatToPay := none, invoiceAmountMsat := some 4000, expiry := 0 }
    proofDb := []
    signedSecrets := []
    inputFeePpk := 0 }

/-- The melt request of the `c4` scenario. -/
def c4Req : MeltRequest :=
  { inputs := [⟨1, 8, CurrencyUnit.Sat⟩], outputs := none, sigAll := false }

/-- The quote returned by the successful verification of the `c4` scenario. -/
def c4Quote : MeltQuote :=
  { id := 7, amount := 4, feeReserve := 1, unit := CurrencyUnit.Sat,
    state := MeltQuoteState.Pending, requestLookupId := 0,
    msatToPay := none, invoiceAmountMsat := some 4000, expiry := 0 }

/-- The store after the successful verification of the `c4` scenario. -/
def c4St1 : MintState :=
  { quote := c4Quote
    proofDb := [(1, ⟨ProofState.Pending, none⟩)]
    signedSecrets := []
    inputFeePpk := 0 }

/-- The `check_outgoing_payment` response of the `c4` scenario: `Failed`. -/
def c4Chk : MakePaymentResponse :=
  { status := MeltQuoteState.Failed, totalSpent := 0, unit := CurrencyUnit.Sat,
    paymentProof := none, paymentLookupId := 0 }

/-- A backend whose `make_payment` reports `Failed` and whose follow-up check
confirms `Failed`. -/
def c4Ln : LnBackend :=
  { makePayment := Except.ok
      { status := MeltQuoteState.Failed, totalSpent := 0, unit := CurrencyUnit.Sat,
        paymentProof := none, paymentLookupId := 0 }
    checkOutgoing := some c4Chk }

/-- The environment of the `c4` scenario. -/
def c4Env : MeltEnv := { ln := some c4Ln, internalMelt := Except.ok none }

/-- A fresh store with an `Unpaid` melt quote for the balance-check scenario. -/
def c5St : MintState :=
  { quote := { id := 7, amount := 4, feeReserve := 1, unit := CurrencyUnit.Sat,
               state := MeltQuoteState.Unpaid, requestLookupId := 0,
               msatToPay := none, invoiceAmountMsat := some 4000, expiry := 0 }
    proofDb := []
    signedSecrets := []
    inputFeePpk := 0 }

/-- The melt request of the balance-check scenario: one 8-sat input against a
required total of 5. -/
def c5Req : MeltRequest :=
  { inputs := [⟨1, 8, CurrencyUnit.Sat⟩], outputs := none, sigAll := false }

/-- A store already holding the request's `y` as an `Unspent` proof, so that
`add_proofs` fails with `Duplicate`. -/
def c6bSt : MintState :=
  { quote := { id := 7, amount := 4, feeReserve := 1, unit := CurrencyUnit.Sat,
               state := MeltQuoteState.Unpaid, requestLookupId := 0,
               msatToPay := none, invoiceAmountMsat := some 4000, expiry := 0 }
    proofDb := [(1, ⟨ProofState.Unspent, none⟩)]
    signedSecrets := []
    inputFeePpk := 0 }

/-- The melt request colliding with the stored proof of `c6bSt`. -/
def c6bReq : MeltRequest :=
  { inputs := [⟨1, 8, CurrencyUnit.Sat⟩], outputs := none, sigAll := false }

/-- Quote-creation environment whose store already holds a mint quote with the
same invoice. -/
def c7Env : QuoteEnv :=
  { settings := { disabled := false, unitMethodSupported := true, amountless := false,
                  mppSupported := true, minAmount := none, maxAmount := none,
                  mintQuoteWithSameRequest := true }
    lnAvailable := true
    paymentQuote := some { amount := 5, fee := 1, requestLookupId := 3 }
    meltTtl := 100
    now := 0
    newId := 9 }

/-- A melt-quote request carrying `Mpp` options. -/
def c7R : MeltQuoteRequest :=
  { request := 1, invoiceAmountMsat := some 5000, unit := CurrencyUnit.Sat,
    options := some (MeltOptions.mpp 5000) }

/-- Quote-creation environment accepting an amountless request. -/
def c8Env : QuoteEnv :=
  { settings := { disabled := false, unitMethodSupported := true, amountless := true,
                  mppSupported := false, minAmount := none, maxAmount := none,
                  mintQuoteWithSameRequest := false }
    lnAvailable := true
    paymentQuote := some { amount := 5, fee := 1, requestLookupId := 3 }
    meltTtl := 100
    now := 0
    newId := 9 }

/-- An amountless melt-quote request with `Amountless` options for 5000 msat. -/
def c8R : MeltQuoteRequest :=
  { request := 1, invoiceAmountMsat := none, unit := CurrencyUnit.Sat,
    options := some (MeltOptions.amountless 5000) }

/-- The melt quote `get_melt_bolt11_quote c8Env c8R` creates. -/
def c8Q : MeltQuote :=
  { id := 9, amount := 5, feeReserve := 1, unit := CurrencyUnit.Sat,
    state := MeltQuoteState.Unpaid, requestLookupId := 3,
    msatToPay := some 5000, invoiceAmountMsat := none, expiry := 100 }

/-- A store after verification whose blind-signature table already contains
the change output's blinded secret 5. -/
def c9St : MintState :=
  { quote := { id := 7, amount := 5, feeReserve := 0, unit := CurrencyUnit.Sat,
               state := MeltQuoteState.Pending, requestLookupId := 0,
               msatToPay := none, invoiceAmountMsat := some 5000, expiry := 0 }
    proofDb := [(1, ⟨ProofState.Pending, none⟩)]
    signedSecrets := [5]
    inputFeePpk := 0 }

/-- A finalizing melt request on `c9St` whose change output was already
signed. -/
def c9Req : MeltRequest :=
  { inputs := [⟨1, 10, CurrencyUnit.Sat⟩]
    outputs := some [⟨0, 5, CurrencyUnit.Sat⟩]
    sigAll := false }

/-- A fresh store with an `Unpaid` melt quote for the conversion scenario. -/
def c10St : MintState :=
  { quote := { id := 7, amount := 4, feeReserve := 1, unit := CurrencyUnit.Sat,
               state := MeltQuoteState.Unpaid, requestLookupId := 0,
               msatToPay := none, invoiceAmountMsat := some 4000, expiry := 0 }
    proofDb := []
    signedSecrets := []
    inputFeePpk := 0 }

/-- The melt request of the conversion scenario. -/
def c10Req : MeltRequest :=
  { inputs := [⟨1, 8, CurrencyUnit.Sat⟩], outputs := none, sigAll := false }

/-- The quote returned by the successful verification of the conversion
scenario. -/
def c10Quote : MeltQuote :=
  { id := 7, amount := 4, feeReserve := 1, unit := CurrencyUnit.Sat,
    state := MeltQuoteState.Pending, requestLookupId := 0,
    msatToPay := none, invoiceAmountMsat := some 4000, expiry := 0 }

/-- The store after the successful verification of the conversion scenario. -/
def c10St1 : MintState :=
  { quote := c10Quote
    proofDb := [(1, ⟨ProofState.Pending, none⟩)]
    signedSecrets := []
    inputFeePpk := 0 }

/-- A `Paid` payment response whose `total_spent` is denominated in a custom
unit that cannot be converted to the quote's `Sat`. -/
def c10Pay : MakePaymentResponse :=
  { status := MeltQuoteState.Paid, totalSpent := 5, unit := CurrencyUnit.Custom 0,
    paymentProof := some 2, paymentLookupId := 0 }

/-- A backend paying immediately with the inconvertible response `c10Pay`. -/
def c10Ln : LnBackend := { makePayment := Except.ok c10Pay, checkOutgoing := none }

/-- The environment of the conversion scenario. -/
def c10Env : MeltEnv := { ln := some c10Ln, internalMelt := Except.ok none }

end CdkMelt

namespace CdkMelt

/-! Section: Claim theorems -/

/-- C1: the claim says a `melt_bolt11` call that finds the quote already
`Pending` fails with `PendingQuote` returned as-is, performs no rollback, and
leaves the quote's state and all stored proof states unchanged. The code
disagrees: on any verification error — including the `PendingQuote` lost race
— `melt_bolt11` runs `process_unpaid_melt`, which deletes the pending input
proofs and resets the quote to `Unpaid`, disturbing the concurrent winner's
`Pending` claim. Evaluated at the failing input: the call returns
`PendingQuote`, yet afterwards the quote is `Unpaid` (not `Pending`) and the
proof table is empty. -/
theorem C1_code_divergence :
    melt_bolt11 c1Env c1St c1Req =
      (Except.error Error.PendingQuote,
        { quote := { id := 7, amount := 4, feeReserve := 1, unit := CurrencyUnit.Sat,
                     state := MeltQuoteState.Unpaid, requestLookupId := 0,
                     msatToPay := none, invoiceAmountMsat := some 4000, expiry := 0 }
          proofDb := []
          signedSecrets := []
          inputFeePpk := 0 }) ∧
    (melt_bolt11 c1Env c1St c1Req).2.quote.state ≠ c1St.quote.state ∧
    (melt_bolt11 c1Env c1St c1Req).2.proofDb ≠ c1St.proofDb := by
  decide

/-- C2 counterexample: with `make_payment` reporting `Failed` and
`check_outgoing_payment` reporting `Paid`, `melt_bolt11` does not finalize as
the claim states: it returns the `Internal` error, and afterwards the input
proof is still `Pending` (not `Spent`) and the quote still `Pending` (not
`Paid`). -/
theorem C2_counterexample :
    (melt_bolt11 c2Env c2St c2Req).1 = Except.error Error.Internal ∧
    (melt_bolt11 c2Env c2St c2Req).2.quote.state = MeltQuoteState.Pending ∧
    proofStateOf (melt_bolt11 c2Env c2St c2Req).2 1 = ProofState.Pending := by
  decide

/-- C3 counterexample: with input total 10, `amount_spent` 9 and input fee 1,
the input total does not exceed `amount_spent + fee`, yet the response carries
a (empty) change field: the code's change gate is `input_total > amount_spent`
alone, so the claimed iff fails. -/
theorem C3_counterexample :
    ¬ (9 + getProofsFee c3St.inputFeePpk c3Req.inputs < proofsAmount c3Req.inputs) ∧
    (process_melt_request c3St c3Req none 9).1 =
      Except.ok
        { amount := 9, paid := true, paymentPreimage := none,
          change := some [], feeReserve := 0, state := MeltQuoteState.Paid } := by
  decide

/-- C6 counterexample: after a successful `verify_melt_request` the input
proof is stored `Pending` with quote binding `none` — the code calls
`add_proofs(inputs, None)` — not bound to the melt quote (id 7) as the claim
states. -/
theorem C6_counterexample :
    (verify_melt_request c6St c6Req).1 =
      Except.ok { id := 7, amount := 4, feeReserve := 1, unit := CurrencyUnit.Sat,
                  state := MeltQuoteState.Pending, requestLookupId := 0,
                  msatToPay := none, invoiceAmountMsat := some 4000, expiry := 0 } ∧
    c6St.quote.id = 7 ∧
    lookupProof (verify_melt_request c6St c6Req).2.proofDb 1 =
      some ⟨ProofState.Pending, none⟩ := by
  decide

end CdkMelt
namespace CdkMelt

theorem filterMap_testBit_mod (n a : Nat) :
    ∀ l : List Nat, (∀ b ∈ l, b < n) →
      l.filterMap (fun b => if a.testBit b then some (2 ^ b) else none) =
      l.filterMap (fun b => if (a % 2 ^ n).testBit b then some (2 ^ b) else none) := by
  intro l
  induction l with
  | nil => intro _; rfl
  | cons b t ih =>
    intro hb
    have hbn : b < n := hb b (by simp)
    have hmt : (a % 2 ^ n).testBit b = a.testBit b := by
      rw [Nat.testBit_mod_two_pow]
      simp [hbn]
    have ht := ih (fun x hx => hb x (by simp [hx]))
    simp only [List.filterMap_cons, hmt]
    cases a.testBit b <;> simp [ht]

theorem splitBits_sum (n : Nat) : ∀ a, a < 2 ^ n →
    (((List.range n).reverse.filterMap
      (fun b => if a.testBit b then some (2 ^ b) else none)).sum) = a := by
  induction n with
  | zero =>
    intro a ha
    have : a = 0 := by omega
    simp [this]
  | succ n ih =>
    intro a ha
    rw [List.range_succ, List.reverse_append]
    have hrev : [n].reverse = [n] := rfl
    rw [hrev, List.singleton_append]
    have hlt : ∀ b ∈ (List.range n).reverse, b < n := by
      intro b hb
      rw [List.mem_reverse, List.mem_range] at hb
      exact hb
    have hpos : 0 < 2 ^ n := Nat.pos_pow_of_pos n (by norm_num)
    have hmodlt : a % 2 ^ n < 2 ^ n := Nat.mod_lt _ hpos
    have hrest : ((List.range n).reverse.filterMap
        (fun b => if a.testBit b then some (2 ^ b) else none)).sum = a % 2 ^ n := by
      rw [filterMap_testBit_mod n a _ hlt]
      exact ih (a % 2 ^ n) hmodlt
    have h2 : 2 ^ (n + 1) = 2 * 2 ^ n := by ring
    have hdiv : a / 2 ^ n < 2 := (Nat.div_lt_iff_lt_mul hpos).mpr (by omega)
    have hmoddiv := Nat.div_add_mod a (2 ^ n)
    have htb : a.testBit n = decide (a / 2 ^ n % 2 = 1) := Nat.testBit_to_div_mod
    cases h : a.testBit n with
    | false =>
      rw [h] at htb
      have hne : ¬ (a / 2 ^ n % 2 = 1) := of_decide_eq_false htb.symm
      have hd0 : a / 2 ^ n = 0 := by
        generalize hg : a / 2 ^ n = t at hdiv hne
        omega
      have he : 2 ^ n * (a / 2 ^ n) = 0 := by rw [hd0]; ring
      simp only [List.filterMap_cons, h]
      simp only [Bool.false_eq_true, if_false]
      rw [hrest]
      omega
    | true =>
      rw [h] at htb
      have heq : a / 2 ^ n % 2 = 1 := of_decide_eq_true htb.symm
      have hd1 : a / 2 ^ n = 1 := by
        generalize hg : a / 2 ^ n = t at hdiv heq
        omega
      have he : 2 ^ n * (a / 2 ^ n) = 2 ^ n := by rw [hd1]; ring
      simp only [List.filterMap_cons, h, if_true, List.sum_cons]
      rw [hrest]
      omega

theorem splitAmount_sum {a : Nat} (ha : a < 2 ^ 64) : (splitAmount a).sum = a :=
  splitBits_sum 64 a ha

theorem splitAmount_nil_iff {a : Nat} (ha : a < 2 ^ 64) : splitAmount a = [] ↔ a = 0 := by
  constructor
  · intro h
    have hs := splitAmount_sum ha
    rw [h] at hs
    simpa using hs.symm
  · intro h
    subst h
    simp [splitAmount]

theorem splitAmount_sorted (a : Nat) :
    List.Pairwise (fun x y => y ≤ x) (splitAmount a) := by
  unfold splitAmount
  apply List.Pairwise.filterMap (R := fun x y => y < x)
  · intro b b' hbb x hx y hy
    have hxb : x = 2 ^ b := by
      by_cases h : a.testBit b <;> simp [h] at hx
      exact hx.symm
    have hyb : y = 2 ^ b' := by
      by_cases h : a.testBit b' <;> simp [h] at hy
      exact hy.symm
    subst hxb; subst hyb
    exact Nat.pow_le_pow_right (by norm_num) (Nat.le_of_lt hbb)
  · rw [List.pairwise_reverse]
    exact List.pairwise_lt_range 64

theorem splitAmount_pow {a x : Nat} (hx : x ∈ splitAmount a) : ∃ b, x = 2 ^ b := by
  unfold splitAmount at hx
  rw [List.mem_filterMap] at hx
  obtain ⟨b, _, hb⟩ := hx
  by_cases h : a.testBit b <;> simp [h] at hb
  exact ⟨b, hb.symm⟩

end CdkMelt

namespace CdkMelt

theorem insertDesc_perm (a : Amount) (l : List Amount) : (insertDesc a l).Perm (a :: l) := by
  induction l with
  | nil => exact List.Perm.refl _
  | cons b t ih =>
    unfold insertDesc
    by_cases h : b ≤ a
    · simp only [if_pos h]
      exact List.Perm.refl _
    · simp only [if_neg h]
      exact (ih.cons b).trans (List.Perm.swap a b t)

theorem sortDesc_perm (l : List Amount) : (sortDesc l).Perm l := by
  induction l with
  | nil => exact List.Perm.refl _
  | cons a t ih =>
    unfold sortDesc
    exact (insertDesc_perm a (sortDesc t)).trans (ih.cons a)

theorem insertDesc_sorted {a : Amount} {l : List Amount}
    (h : List.Pairwise (fun x y => y ≤ x) l) :
    List.Pairwise (fun x y => y ≤ x) (insertDesc a l) := by
  induction l with
  | nil => simp [insertDesc]
  | cons b t ih =>
    rw [List.pairwise_cons] at h
    obtain ⟨hb, ht⟩ := h
    unfold insertDesc
    by_cases hba : b ≤ a
    · rw [if_pos hba, List.pairwise_cons]
      refine ⟨?_, ?_⟩
      · intro x hx
        rcases List.mem_cons.mp hx with rfl | hx2
        · exact hba
        · exact le_trans (hb x hx2) hba
      · rw [List.pairwise_cons]
        exact ⟨hb, ht⟩
    · rw [if_neg hba, List.pairwise_cons]
      refine ⟨?_, ih ht⟩
      intro x hx
      have hx3 : x ∈ a :: t := (insertDesc_perm a t).mem_iff.mp hx
      rcases List.mem_cons.mp hx3 with rfl | hx4
      · exact Nat.le_of_lt (Nat.lt_of_not_le hba)
      · exact hb x hx4

theorem sortDesc_sorted (l : List Amount) :
    List.Pairwise (fun x y => y ≤ x) (sortDesc l) := by
  induction l with
  | nil => simp [sortDesc]
  | cons a t ih =>
    unfold sortDesc
    exact insertDesc_sorted ih

theorem sortDesc_nil_iff (l : List Amount) : sortDesc l = [] ↔ l = [] := by
  constructor
  · intro h
    have hl := (sortDesc_perm l).length_eq
    rw [h] at hl
    exact List.length_eq_zero.mp hl.symm
  · rintro rfl
    rfl

theorem zipSig_amounts : ∀ (amounts : List Amount) (outs : List BlindedMessage),
    (((amounts.zip outs).map
        (fun p => ChangeSig.mk p.1 p.2.blindedSecret)).map ChangeSig.amount)
      = amounts.take outs.length := by
  intro amounts
  induction amounts with
  | nil => intro outs; simp
  | cons a t ih =>
    intro outs
    cases outs with
    | nil => simp
    | cons o os => simp [ih os]

theorem zipSig_secrets : ∀ (amounts : List Amount) (outs : List BlindedMessage),
    (((amounts.zip outs).map
        (fun p => ChangeSig.mk p.1 p.2.blindedSecret)).map ChangeSig.blindedSecret)
      = (outs.map (fun o => o.blindedSecret)).take amounts.length := by
  intro amounts
  induction amounts with
  | nil => intro outs; simp
  | cons a t ih =>
    intro outs
    cases outs with
    | nil => simp
    | cons o os => simp [ih os]

theorem zipSig_nil_iff (amounts : List Amount) (outs : List BlindedMessage) :
    ((amounts.zip outs).map (fun p => ChangeSig.mk p.1 p.2.blindedSecret)) = [] ↔
      amounts = [] ∨ outs = [] := by
  rw [List.map_eq_nil_iff]
  cases amounts <;> cases outs <;> simp [List.zip]

theorem lookupProof_eq_none {db : List (Nat × ProofEntry)} {y : Nat} :
    lookupProof db y = none ↔ ∀ e ∈ db, e.1 ≠ y := by
  unfold lookupProof
  rw [Option.map_eq_none', List.find?_eq_none]
  constructor <;> intro h e he <;> simpa using h e he

theorem find_setStates (db : List (Nat × ProofEntry)) (ys : List Nat) (s : ProofState)
    (y : Nat) :
    ((setStates db ys s).find? (fun e => e.1 == y)) =
      (db.find? (fun e => e.1 == y)).map
        (fun e => if ys.contains e.1 then (e.1, { e.2 with state := s }) else e) := by
  induction db with
  | nil => rfl
  | cons kv t ih =>
    have hhead : (if ys.contains kv.1 then (kv.1, { kv.2 with state := s }) else kv).1
        = kv.1 := by
      split <;> rfl
    simp only [setStates, List.map_cons, List.find?_cons, hhead]
    by_cases hky : (kv.1 == y) = true
    · simp [hky]
    · simp only [hky]
      simpa [setStates] using ih

end CdkMelt

namespace CdkMelt

theorem contains_of_mem {l : List Nat} {a : Nat} (h : a ∈ l) : l.contains a = true := by
  simpa using h

theorem not_mem_of_contains_eq_false {l : List Nat} {a : Nat}
    (h : l.contains a = false) : ¬ a ∈ l := by
  intro hm
  rw [contains_of_mem hm] at h
  cases h

theorem lookup_setStates (db : List (Nat × ProofEntry)) (ys : List Nat) (s : ProofState)
    (y : Nat) :
    lookupProof (setStates db ys s) y =
      (lookupProof db y).map
        (fun e => if ys.contains y then { e with state := s } else e) := by
  unfold lookupProof
  rw [find_setStates]
  cases h : db.find? (fun e => e.1 == y) with
  | none => rfl
  | some e =>
    have hk := List.find?_some h
    have hky : e.1 = y := by simpa using hk
    simp only [Option.map_some', hky]
    split <;> rfl

theorem lookup_fresh {inputs : List Proof} {y : Nat} (h : y ∈ inputs.map Proof.y)
    (c : ProofEntry) :
    lookupProof (inputs.map (fun p => (p.y, c))) y = some c := by
  induction inputs with
  | nil => simp at h
  | cons p t ih =>
    by_cases hpy : p.y = y
    · simp [lookupProof, List.find?_cons, hpy]
    · have hby : (p.y == y) = false := by simp [hpy]
      simp only [List.map_cons, List.mem_cons] at h
      rcases h with h1 | h2
      · exact absurd h1.symm hpy
      · simpa [lookupProof, List.find?_cons, hby] using ih h2

theorem lookup_after_pending {db : List (Nat × ProofEntry)} {inputs : List Proof} {y : Nat}
    (hfresh : ∀ p ∈ inputs, lookupProof db p.y = none)
    (hy : y ∈ inputs.map Proof.y) :
    lookupProof
      (setStates (db ++ inputs.map (fun p => (p.y, ⟨ProofState.Unspent, none⟩)))
        (inputs.map Proof.y) ProofState.Pending) y
      = some ⟨ProofState.Pending, none⟩ := by
  rw [lookup_setStates]
  have hdbnone : lookupProof db y = none := by
    obtain ⟨p, hp, hpy⟩ := List.mem_map.mp hy
    rw [← hpy]
    exact hfresh p hp
  have happ : lookupProof
      (db ++ inputs.map (fun p => (p.y, ⟨ProofState.Unspent, none⟩))) y
      = some ⟨ProofState.Unspent, none⟩ := by
    unfold lookupProof at hdbnone ⊢
    rw [Option.map_eq_none'] at hdbnone
    rw [List.find?_append, hdbnone, Option.none_or]
    have := lookup_fresh hy (⟨ProofState.Unspent, none⟩ : ProofEntry)
    unfold lookupProof at this
    exact this
  rw [happ, contains_of_mem hy]
  simp

theorem entries_after_pending {db : List (Nat × ProofEntry)} {inputs : List Proof}
    (hfresh : ∀ p ∈ inputs, lookupProof db p.y = none) :
    ∀ e ∈ setStates (db ++ inputs.map (fun p => (p.y, ⟨ProofState.Unspent, none⟩)))
        (inputs.map Proof.y) ProofState.Pending,
      e.1 ∈ inputs.map Proof.y → e.2 = ⟨ProofState.Pending, none⟩ := by
  intro e he hey
  unfold setStates at he
  rw [List.mem_map] at he
  obtain ⟨e₀, he₀, rfl⟩ := he
  by_cases hc : (inputs.map Proof.y).contains e₀.1 = true
  · rw [if_pos hc] at hey ⊢
    rcases List.mem_append.mp he₀ with hdb | hfr
    · obtain ⟨p, hp, hpy⟩ := List.mem_map.mp hey
      have := lookupProof_eq_none.mp (hfresh p hp) e₀ hdb
      exact absurd hpy.symm this
    · rw [List.mem_map] at hfr
      obtain ⟨p, hp, hpe⟩ := hfr
      rw [← hpe]
  · rw [if_neg hc] at hey
    exact absurd hey (not_mem_of_contains_eq_false (Bool.eq_false_iff.mpr hc))

end CdkMelt

namespace CdkMelt

theorem verify_ok_shape {st0 : MintState} {req : MeltRequest} {q : MeltQuote} {st₁ : MintState}
    (h : verify_melt_request st0 req = (Except.ok q, st₁)) :
    q = { st0.quote with state := MeltQuoteState.Pending } ∧
    (∀ p ∈ req.inputs, lookupProof st0.proofDb p.y = none) ∧
    st₁ = { st0 with
      quote := { st0.quote with state := MeltQuoteState.Pending }
      proofDb := setStates
        (st0.proofDb ++ req.inputs.map (fun p => (p.y, ⟨ProofState.Unspent, none⟩)))
        (req.inputs.map Proof.y) ProofState.Pending } := by
  unfold verify_melt_request updateMeltQuoteState at h
  simp only [] at h
  split at h
  case h_1 => simp at h
  case h_2 => simp at h
  case h_3 => simp at h
  case h_4 =>
    split at h
    · simp at h
    · split at h
      · simp at h
      · split at h
        · simp at h
        · split at h
          case h_1 => simp at h
          case h_2 => simp at h
          case h_3 => simp at h
          case h_4 heq =>
            unfold addProofs at heq
            split at heq
            · simp at heq
            · split at heq
              · simp at heq
              · rename_i hspent hdup
                injection heq with heq1
                subst heq1
                have hfresh : ∀ p ∈ req.inputs, lookupProof st0.proofDb p.y = none := by
                  intro p hp
                  rw [← Option.not_isSome_iff_eq_none]
                  intro hs
                  exact hdup (List.any_eq_true.mpr ⟨p, hp, hs⟩)
                split at h
                · simp at h
                · rename_i st2 heq2
                  unfold checkYsSpendable at heq2
                  split at heq2
                  · simp at heq2
                  · split at heq2
                    · simp at heq2
                    · injection heq2 with heq2a
                      subst heq2a
                      split at h
                      · simp at h
                      · split at h
                        case h_1 =>
                          simp only [Prod.mk.injEq, Except.ok.injEq] at h
                          exact ⟨h.1.symm, hfresh, h.2.symm⟩
                        case h_2 =>
                          split at h
                          · simp only [Prod.mk.injEq, Except.ok.injEq] at h
                            exact ⟨h.1.symm, hfresh, h.2.symm⟩
                          · split at h
                            · simp at h
                            · split at h
                              · simp only [Prod.mk.injEq, Except.ok.injEq] at h
                                exact ⟨h.1.symm, hfresh, h.2.symm⟩
                              · simp at h

end CdkMelt

namespace CdkMelt

theorem verify_ok_pending_lookup {st0 : MintState} {req : MeltRequest} {q : MeltQuote}
    {st₁ : MintState} (h : verify_melt_request st0 req = (Except.ok q, st₁)) :
    ∀ y ∈ req.inputs.map Proof.y,
      lookupProof st₁.proofDb y = some ⟨ProofState.Pending, none⟩ := by
  obtain ⟨-, hfresh, hst⟩ := verify_ok_shape h
  intro y hy
  rw [hst]
  exact lookup_after_pending hfresh hy

theorem verify_ok_entries {st0 : MintState} {req : MeltRequest} {q : MeltQuote}
    {st₁ : MintState} (h : verify_melt_request st0 req = (Except.ok q, st₁)) :
    ∀ e ∈ st₁.proofDb, e.1 ∈ req.inputs.map Proof.y →
      e.2 = ⟨ProofState.Pending, none⟩ := by
  obtain ⟨-, hfresh, hst⟩ := verify_ok_shape h
  rw [hst]
  exact entries_after_pending hfresh

theorem lookup_removeProofs_none {st : MintState} {ys : List Nat} {y : Nat} (hy : y ∈ ys)
    (hall : ∀ e ∈ st.proofDb, e.1 ∈ ys → e.2.state = ProofState.Pending) :
    lookupProof (removeProofs st ys).proofDb y = none := by
  rw [lookupProof_eq_none]
  intro e he hee
  unfold removeProofs at he
  rw [List.mem_filter] at he
  obtain ⟨hmem, hcond⟩ := he
  have h1 : e.1 ∈ ys := by rw [hee]; exact hy
  have h2 : e.2.state = ProofState.Pending := hall e hmem h1
  rw [contains_of_mem h1, h2] at hcond
  simp at hcond

theorem process_unpaid_quote_state (st : MintState) (req : MeltRequest) :
    (process_unpaid_melt st req).quote.state = MeltQuoteState.Unpaid := rfl

theorem process_unpaid_proofDb (st : MintState) (req : MeltRequest) :
    (process_unpaid_melt st req).proofDb
      = (removeProofs st (req.inputs.map Proof.y)).proofDb := rfl

theorem getBlindSignatures_any (st : MintState) (secrets : List Nat) :
    ((getBlindSignatures st secrets).any Option.isSome)
      = secrets.any (fun s => st.signedSecrets.contains s) := by
  induction secrets with
  | nil => rfl
  | cons s t ih =>
    unfold getBlindSignatures at ih ⊢
    simp only [List.map_cons, List.any_cons, ih]
    by_cases hc : s ∈ st.signedSecrets <;> simp [hc]

theorem updateProofsStates_spent_ok (st : MintState) (ys : List Nat) :
    updateProofsStates st ys ProofState.Spent =
      Except.ok { st with proofDb := setStates st.proofDb ys ProofState.Spent } := by
  unfold updateProofsStates
  have hf : ∀ y, (match lookupProof st.proofDb y with
      | some e => e.state == ProofState.Spent && !(ProofState.Spent == ProofState.Spent)
      | none => false) = false := by
    intro y
    cases lookupProof st.proofDb y with
    | none => rfl
    | some e => simp
  have : (ys.any (fun y => match lookupProof st.proofDb y with
      | some e => e.state == ProofState.Spent && !(ProofState.Spent == ProofState.Spent)
      | none => false)) = false := by
    rw [List.any_eq_false]
    intro y _
    rw [hf y]
    simp
  rw [this]
  simp

end CdkMelt

namespace CdkMelt

theorem process_ok_change {st0 : MintState} {req : MeltRequest} {pre : Option Nat}
    {spent : Amount} {resp : MeltQuoteBolt11Response} {st' : MintState}
    (h : process_melt_request st0 req pre spent = (Except.ok resp, st')) :
    (resp.change.isSome ↔ (spent < proofsAmount req.inputs ∧ req.outputs.isSome)) ∧
    (∀ outs, req.outputs = some outs → ∀ sigs, resp.change = some sigs →
      sigs = ((changeAmounts st0 req spent outs).zip outs).map
        (fun p => ChangeSig.mk p.1 p.2.blindedSecret)) := by
  unfold process_melt_request at h
  rw [updateProofsStates_spent_ok] at h
  simp only [] at h
  split at h
  · simp at h
  · rename_i change st3 heq
    simp only [Prod.mk.injEq, Except.ok.injEq] at h
    obtain ⟨hresp, hst⟩ := h
    subst hresp
    split at heq
    · rename_i hgate
      split at heq
      · rename_i houts
        simp only [Except.ok.injEq, Prod.mk.injEq] at heq
        obtain ⟨hch, -⟩ := heq
        constructor
        · rw [← hch]
          simp [houts]
        · intro outs houts2
          rw [houts] at houts2
          cases houts2
      · rename_i outputs houts
        split at heq
        · simp at heq
        · split at heq
          · simp at heq
          · rename_i st4 hadd
            simp only [Except.ok.injEq, Prod.mk.injEq] at heq
            obtain ⟨hch, hst3⟩ := heq
            constructor
            · rw [← hch]
              simp [hgate, houts]
            · intro outs houts2 sigs hsigs
              rw [houts] at houts2
              injection houts2 with houts3
              rw [← hch] at hsigs
              injection hsigs with hsigs2
              rw [← hsigs2, ← houts3]
              simp [changeAmounts, updateMeltQuoteState]
    · rename_i hgate
      simp only [Except.ok.injEq, Prod.mk.injEq] at heq
      obtain ⟨hch, -⟩ := heq
      constructor
      · rw [← hch]
        simp
        intro hc
        exact absurd hc hgate
      · intro outs houts2 sigs hsigs
        rw [← hch] at hsigs
        cases hsigs

end CdkMelt

namespace CdkMelt

theorem checkYs_error_shape {st : MintState} {ys : List Nat} {t : ProofState} {e : Error}
    (h : checkYsSpendable st ys t = Except.error e) :
    e = Error.TokenAlreadySpent ∨ e = Error.TokenPending := by
  unfold checkYsSpendable at h
  split at h
  · injection h with h1
    exact Or.inl h1.symm
  · split at h
    · injection h with h1
      exact Or.inr h1.symm
    · cases h

theorem verifyOutputs_error_shape {st : MintState} {outs : List BlindedMessage} {e : Error}
    (h : verifyOutputs st outs = Except.error e) :
    e = Error.MultipleUnits ∨ e = Error.BlindedMessageAlreadySigned := by
  unfold verifyOutputs at h
  split at h
  · cases h
  · split at h
    · injection h with h1
      exact Or.inl h1.symm
    · split at h
      · injection h with h1
        exact Or.inr h1.symm
      · cases h

theorem process_signed_change_stuck {st0 : MintState} {req : MeltRequest} {pre : Option Nat}
    {spent : Amount} {outs : List BlindedMessage}
    (hgate : spent < proofsAmount req.inputs)
    (houts : req.outputs = some outs)
    (hsig : (outs.any (fun o => st0.signedSecrets.contains o.blindedSecret)) = true) :
    process_melt_request st0 req pre spent =
      (Except.error Error.BlindedMessageAlreadySigned,
        { quote := { st0.quote with state := MeltQuoteState.Paid }
          proofDb := setStates st0.proofDb (req.inputs.map Proof.y) ProofState.Spent
          signedSecrets := st0.signedSecrets
          inputFeePpk := st0.inputFeePpk }) := by
  unfold process_melt_request
  rw [updateProofsStates_spent_ok]
  simp only [houts, updateMeltQuoteState, getBlindSignatures_any, List.any_map,
    Function.comp, if_pos hgate]
  rw [if_pos]
  simpa using hsig

end CdkMelt

namespace CdkMelt

/-- C5: for a melt request whose quote CAS and input verification pass,
`verify_melt_request` fails with `TransactionUnbalanced` exactly when the
input total is strictly below `quote.amount + fee_reserve + input_fee`; a
total greater than or equal to the required total never produces
`TransactionUnbalanced` (excess is allowed). -/
theorem C5_transaction_unbalanced_iff (st0 : MintState) (req : MeltRequest) (amt : Amount) (u : CurrencyUnit)
    (hq : st0.quote.state = MeltQuoteState.Unpaid ∨ st0.quote.state = MeltQuoteState.Failed)
    (hv : verifyInputs req.inputs = Except.ok (amt, some u)) :
    ((∃ a b c, (verify_melt_request st0 req).1
        = Except.error (Error.TransactionUnbalanced a b c)) ↔
      amt < st0.quote.amount + st0.quote.feeReserve
        + getProofsFee st0.inputFeePpk req.inputs) := by
  unfold verify_melt_request updateMeltQuoteState
  simp only []
  split
  case h_1 hcontra => rw [hcontra] at hq; rcases hq with h | h <;> cases h
  case h_2 hcontra => rw [hcontra] at hq; rcases hq with h | h <;> cases h
  case h_3 hcontra => rw [hcontra] at hq; rcases hq with h | h <;> cases h
  case h_4 =>
    rw [hv]
    simp only [Option.isNone_some, Bool.false_eq_true, if_false]
    by_cases hb : amt < st0.quote.amount + st0.quote.feeReserve
        + getProofsFee st0.inputFeePpk req.inputs
    · rw [if_pos hb]
      exact iff_of_true
        ⟨amt, st0.quote.amount,
          getProofsFee st0.inputFeePpk req.inputs + st0.quote.feeReserve, rfl⟩ hb
    · rw [if_neg hb]
      refine iff_of_false ?_ hb
      rintro ⟨a, b, c, hcontra⟩
      split at hcontra
      · simp at hcontra
      · simp at hcontra
      · simp at hcontra
      · split at hcontra
        · rename_i e heq
          simp only [] at hcontra
          injection hcontra with h1
          rcases checkYs_error_shape heq with rfl | rfl <;> cases h1
        · split at hcontra
          · simp at hcontra
          · split at hcontra
            · simp at hcontra
            · split at hcontra
              · simp at hcontra
              · split at hcontra
                · rename_i e heq
                  simp only [] at hcontra
                  injection hcontra with h1
                  rcases verifyOutputs_error_shape heq with rfl | rfl <;> cases h1
                · split at hcontra <;> simp at hcontra

end CdkMelt

namespace CdkMelt

theorem changeAmounts_sorted (st : MintState) (req : MeltRequest) (spent : Amount)
    (outs : List BlindedMessage) :
    List.Pairwise (fun x y => y ≤ x) (changeAmounts st req spent outs) := by
  rw [changeAmounts]
  split
  · exact sortDesc_sorted _
  · exact splitAmount_sorted _

theorem changeAmounts_perm (st : MintState) (req : MeltRequest) (spent : Amount)
    (outs : List BlindedMessage) :
    (changeAmounts st req spent outs).Perm
      (splitAmount (proofsAmount req.inputs - spent
        - getProofsFee st.inputFeePpk req.inputs)) := by
  rw [changeAmounts]
  split
  · exact sortDesc_perm _
  · exact List.Perm.refl _

theorem changeAmounts_nil_iff {st : MintState} {req : MeltRequest} {spent : Amount}
    {outs : List BlindedMessage}
    (hsmall : proofsAmount req.inputs - spent - getProofsFee st.inputFeePpk req.inputs
      < 2 ^ 64) :
    changeAmounts st req spent outs = [] ↔
      proofsAmount req.inputs - spent - getProofsFee st.inputFeePpk req.inputs = 0 := by
  rw [changeAmounts]
  split
  · rw [sortDesc_nil_iff]
    exact splitAmount_nil_iff hsmall
  · exact splitAmount_nil_iff hsmall

theorem changeAmounts_pow {st : MintState} {req : MeltRequest} {spent : Amount}
    {outs : List BlindedMessage} {x : Amount}
    (hx : x ∈ changeAmounts st req spent outs) : ∃ b, x = 2 ^ b := by
  rw [changeAmounts] at hx
  split at hx
  · exact splitAmount_pow ((sortDesc_perm _).mem_iff.mp hx)
  · exact splitAmount_pow hx

theorem melt_after_verify_ok {env : MeltEnv} {st0 : MintState} {req : MeltRequest}
    {q : MeltQuote} {st₁ : MintState}
    (h₁ : verify_melt_request st0 req = (Except.ok q, st₁))
    (h₂ : env.internalMelt = Except.ok none) :
    melt_bolt11 env st0 req = melt_external env st₁ req q := by
  unfold melt_bolt11
  rw [h₁, h₂]

theorem melt_external_paid {env : MeltEnv} {st : MintState} {req : MeltRequest}
    {q : MeltQuote} {ln : LnBackend} {pre : MakePaymentResponse} {pa : Option Amount}
    (hfee : (if q.unit == CurrencyUnit.Sat || q.unit == CurrencyUnit.Msat then
        check_melt_expected_ln_fees q req else Except.ok none) = Except.ok pa)
    (hln : env.ln = some ln)
    (hpay : payOutcome ln = PayOutcome.resolved pre)
    (hstatus : pre.status = MeltQuoteState.Paid)
    (hlk : pre.paymentLookupId = q.requestLookupId) :
    melt_external env st req q =
      process_melt_request st req pre.paymentProof
        ((to_unit pre.totalSpent pre.unit q.unit).getD 0) := by
  unfold melt_external
  rw [hfee]
  simp only []
  rw [hln]
  simp only []
  rw [hpay]
  simp only []
  rw [hstatus]
  simp [hlk]

theorem melt_external_failed {env : MeltEnv} {st : MintState} {req : MeltRequest}
    {q : MeltQuote} {ln : LnBackend} {pre : MakePaymentResponse} {pa : Option Amount}
    (hfee : (if q.unit == CurrencyUnit.Sat || q.unit == CurrencyUnit.Msat then
        check_melt_expected_ln_fees q req else Except.ok none) = Except.ok pa)
    (hln : env.ln = some ln)
    (hpay : payOutcome ln = PayOutcome.resolved pre)
    (hstatus : pre.status = MeltQuoteState.Failed ∨ pre.status = MeltQuoteState.Unpaid
      ∨ pre.status = MeltQuoteState.Unknown) :
    melt_external env st req q =
      (Except.error Error.PaymentFailed, process_unpaid_melt st req) := by
  unfold melt_external
  rw [hfee]
  simp only []
  rw [hln]
  simp only []
  rw [hpay]
  simp only []
  rcases hstatus with h | h | h <;> rw [h]

theorem melt_external_pending {env : MeltEnv} {st : MintState} {req : MeltRequest}
    {q : MeltQuote} {ln : LnBackend} {pre : MakePaymentResponse} {pa : Option Amount}
    (hfee : (if q.unit == CurrencyUnit.Sat || q.unit == CurrencyUnit.Msat then
        check_melt_expected_ln_fees q req else Except.ok none) = Except.ok pa)
    (hln : env.ln = some ln)
    (hpay : payOutcome ln = PayOutcome.resolved pre)
    (hstatus : pre.status = MeltQuoteState.Pending) :
    melt_external env st req q = (Except.error Error.PendingQuote, st) := by
  unfold melt_external
  rw [hfee]
  simp only []
  rw [hln]
  simp only []
  rw [hpay]
  simp only []
  rw [hstatus]

theorem melt_external_stuck {env : MeltEnv} {st : MintState} {req : MeltRequest}
    {q : MeltQuote} {ln : LnBackend} {pa : Option Amount}
    (hfee : (if q.unit == CurrencyUnit.Sat || q.unit == CurrencyUnit.Msat then
        check_melt_expected_ln_fees q req else Except.ok none) = Except.ok pa)
    (hln : env.ln = some ln)
    (hpay : payOutcome ln = PayOutcome.stuck) :
    melt_external env st req q = (Except.error Error.Internal, st) := by
  unfold melt_external
  rw [hfee]
  simp only []
  rw [hln]
  simp only []
  rw [hpay]

theorem payOutcome_check_paid_stuck {ln : LnBackend} {pay chk : MakePaymentResponse}
    (hmk : ln.makePayment = Except.ok pay)
    (hstat : pay.status = MeltQuoteState.Unknown ∨ pay.status = MeltQuoteState.Failed)
    (hchk : ln.checkOutgoing = some chk)
    (hpaid : chk.status = MeltQuoteState.Paid) :
    payOutcome ln = PayOutcome.stuck := by
  unfold payOutcome
  rw [hmk]
  simp only []
  rcases hstat with h | h <;> rw [h] <;> simp [hchk, hpaid]

theorem verify_ok_quote_pending {st0 : MintState} {req : MeltRequest} {q : MeltQuote}
    {st₁ : MintState} (h : verify_melt_request st0 req = (Except.ok q, st₁)) :
    st₁.quote.state = MeltQuoteState.Pending := by
  obtain ⟨-, -, hst⟩ := verify_ok_shape h
  rw [hst]

end CdkMelt

namespace CdkMelt

theorem lt_of_sub_sub_ne_zero {a b c : Nat} (h : ¬ a - b - c = 0) : b + c < a := by
  omega

theorem sub_sub_eq_zero_of_le {a b c : Nat} (h : b + c < a) (h2 : a - b - c = 0) : False := by
  omega

/-- C2 (amended): when `make_payment` reports `Unknown` or `Failed` and the
follow-up `check_outgoing_payment` reports `Paid`, `melt_bolt11` does not
finalize the melt. It returns the `Internal` error and leaves the input proofs
`Pending` and the quote `Pending` for operator intervention (melt.rs 528-532:
"Proofs stuck as pending"). -/
theorem C2_no_finalize_on_check_paid
    (env : MeltEnv) (st0 st₁ : MintState) (req : MeltRequest) (q : MeltQuote)
    (ln : LnBackend) (pay chk : MakePaymentResponse) (pa : Option Amount)
    (h₁ : verify_melt_request st0 req = (Except.ok q, st₁))
    (h₂ : env.internalMelt = Except.ok none)
    (hfee : (if q.unit == CurrencyUnit.Sat || q.unit == CurrencyUnit.Msat then
        check_melt_expected_ln_fees q req else Except.ok none) = Except.ok pa)
    (hln : env.ln = some ln)
    (hmk : ln.makePayment = Except.ok pay)
    (hstat : pay.status = MeltQuoteState.Unknown ∨ pay.status = MeltQuoteState.Failed)
    (hchk : ln.checkOutgoing = some chk)
    (hpaid : chk.status = MeltQuoteState.Paid) :
    melt_bolt11 env st0 req = (Except.error Error.Internal, st₁) ∧
    st₁.quote.state = MeltQuoteState.Pending ∧
    ∀ y ∈ req.inputs.map Proof.y, proofStateOf st₁ y = ProofState.Pending := by
  have hstuck := payOutcome_check_paid_stuck hmk hstat hchk hpaid
  refine ⟨?_, verify_ok_quote_pending h₁, ?_⟩
  · rw [melt_after_verify_ok h₁ h₂, melt_external_stuck hfee hln hstuck]
  · intro y hy
    unfold proofStateOf
    rw [verify_ok_pending_lookup h₁ y hy]
    rfl

/-- C4: after the payment attempt (including any follow-up check) resolves, a
final status of `Failed` or `Unpaid` triggers `process_unpaid_melt`: the input
proofs are removed from the store — their effective state is `Unspent` — and
the quote resets to `Unpaid`, with the caller receiving `PaymentFailed`. A
final status of `Pending` leaves the input proofs `Pending` and the quote
`Pending`, returning `PendingQuote` with no rollback. -/
theorem C4_rollback_and_pending
    (env : MeltEnv) (st0 st₁ : MintState) (req : MeltRequest) (q : MeltQuote)
    (ln : LnBackend) (pre : MakePaymentResponse) (pa : Option Amount)
    (h₁ : verify_melt_request st0 req = (Except.ok q, st₁))
    (h₂ : env.internalMelt = Except.ok none)
    (hfee : (if q.unit == CurrencyUnit.Sat || q.unit == CurrencyUnit.Msat then
        check_melt_expected_ln_fees q req else Except.ok none) = Except.ok pa)
    (hln : env.ln = some ln)
    (hpay : payOutcome ln = PayOutcome.resolved pre) :
    ((pre.status = MeltQuoteState.Failed ∨ pre.status = MeltQuoteState.Unpaid) →
      melt_bolt11 env st0 req
          = (Except.error Error.PaymentFailed, process_unpaid_melt st₁ req) ∧
        (process_unpaid_melt st₁ req).quote.state = MeltQuoteState.Unpaid ∧
        ∀ y ∈ req.inputs.map Proof.y,
          proofStateOf (process_unpaid_melt st₁ req) y = ProofState.Unspent) ∧
    (pre.status = MeltQuoteState.Pending →
      melt_bolt11 env st0 req = (Except.error Error.PendingQuote, st₁) ∧
        st₁.quote.state = MeltQuoteState.Pending ∧
        ∀ y ∈ req.inputs.map Proof.y, proofStateOf st₁ y = ProofState.Pending) := by
  constructor
  · intro hstatus
    refine ⟨?_, process_unpaid_quote_state _ _, ?_⟩
    · rw [melt_after_verify_ok h₁ h₂,
        melt_external_failed hfee hln hpay
          (by rcases hstatus with h | h
              exacts [Or.inl h, Or.inr (Or.inl h)])]
    · intro y hy
      unfold proofStateOf
      rw [process_unpaid_proofDb,
        lookup_removeProofs_none hy
          (fun e he hey => by rw [verify_ok_entries h₁ e he hey])]
      rfl
  · intro hstatus
    refine ⟨?_, verify_ok_quote_pending h₁, ?_⟩
    · rw [melt_after_verify_ok h₁ h₂, melt_external_pending hfee hln hpay hstatus]
    · intro y hy
      unfold proofStateOf
      rw [verify_ok_pending_lookup h₁ y hy]
      rfl

/-- C9: `process_melt_request` transitions the input proofs to `Spent` and the
quote to `Paid` before any change handling. When a change `blinded_secret` was
previously signed, the call returns `BlindedMessageAlreadySigned` while the
inputs remain `Spent` and the quote remains `Paid`: the error path after
finalization does not restore the pre-call state. -/
theorem C9_finalize_before_change (st0 : MintState) (req : MeltRequest) (pre : Option Nat)
    (spent : Amount) (outs : List BlindedMessage)
    (hgate : spent < proofsAmount req.inputs)
    (houts : req.outputs = some outs)
    (hsig : (outs.any (fun o => st0.signedSecrets.contains o.blindedSecret)) = true)
    (hpres : ∀ y ∈ req.inputs.map Proof.y, (lookupProof st0.proofDb y).isSome = true) :
    (process_melt_request st0 req pre spent).1
        = Except.error Error.BlindedMessageAlreadySigned ∧
    (process_melt_request st0 req pre spent).2.quote.state = MeltQuoteState.Paid ∧
    ∀ y ∈ req.inputs.map Proof.y,
      ((lookupProof (process_melt_request st0 req pre spent).2.proofDb y).map
        ProofEntry.state) = some ProofState.Spent := by
  rw [process_signed_change_stuck hgate houts hsig]
  refine ⟨rfl, rfl, ?_⟩
  intro y hy
  simp only []
  rw [lookup_setStates]
  obtain ⟨e, he⟩ := Option.isSome_iff_exists.mp (hpres y hy)
  rw [he, Option.map_some', contains_of_mem hy]
  simp

/-- C10: after an external payment resolves to `Paid`, if converting the
backend's `total_spent` into the quote's unit fails, the amount spent is
silently taken to be zero (`unwrap_or_default`), so `melt_bolt11` finalizes
via `process_melt_request` with `total_spent = 0` and the change computation
uses the target `input_total − 0 − fee`. -/
theorem C10_conversion_default_zero
    (env : MeltEnv) (st0 st₁ : MintState) (req : MeltRequest) (q : MeltQuote)
    (ln : LnBackend) (pre : MakePaymentResponse) (pa : Option Amount)
    (h₁ : verify_melt_request st0 req = (Except.ok q, st₁))
    (h₂ : env.internalMelt = Except.ok none)
    (hfee : (if q.unit == CurrencyUnit.Sat || q.unit == CurrencyUnit.Msat then
        check_melt_expected_ln_fees q req else Except.ok none) = Except.ok pa)
    (hln : env.ln = some ln)
    (hpay : payOutcome ln = PayOutcome.resolved pre)
    (hstatus : pre.status = MeltQuoteState.Paid)
    (hlk : pre.paymentLookupId = q.requestLookupId)
    (hconv : to_unit pre.totalSpent pre.unit q.unit = none) :
    melt_bolt11 env st0 req = process_melt_request st₁ req pre.paymentProof 0 ∧
    (∀ resp st2, process_melt_request st₁ req pre.paymentProof 0 = (Except.ok resp, st2) →
      ∀ outs, req.outputs = some outs → ∀ sigs, resp.change = some sigs →
        sigs.map ChangeSig.amount = (changeAmounts st₁ req 0 outs).take outs.length) := by
  constructor
  · rw [melt_after_verify_ok h₁ h₂, melt_external_paid hfee hln hpay hstatus hlk, hconv]
    rfl
  · intro resp st2 hp outs houts sigs hsigs
    have hs := (process_ok_change hp).2 outs houts sigs hsigs
    rw [hs]
    exact zipSig_amounts _ _

/-- C3 (amended): in a successful `process_melt_request`, the change field is
`Some` exactly when the input total strictly exceeds `amount_spent` (the fee
does not enter this gate) and the client supplied blinded outputs. The change
signatures carry the first `len(outputs)` pieces of the canonical power-of-two
split of `input_total − amount_spent − fee`, listed descending; the secrets
are the first supplied outputs; the list is nonempty exactly when
`input_total > amount_spent + fee` and at least one output was supplied; and
when enough outputs were supplied the change sums to the full target. -/
theorem C3_change_spec (st0 : MintState) (req : MeltRequest) (pre : Option Nat)
    (spent : Amount) (resp : MeltQuoteBolt11Response) (st2 : MintState)
    (h : process_melt_request st0 req pre spent = (Except.ok resp, st2))
    (hsmall : proofsAmount req.inputs - spent - getProofsFee st0.inputFeePpk req.inputs
      < 2 ^ 64) :
    (resp.change.isSome ↔ (spent < proofsAmount req.inputs ∧ req.outputs.isSome)) ∧
    (∀ outs, req.outputs = some outs → ∀ sigs, resp.change = some sigs →
      sigs.map ChangeSig.amount = (changeAmounts st0 req spent outs).take outs.length ∧
      sigs.map ChangeSig.blindedSecret
        = (outs.map (fun o => o.blindedSecret)).take
            (changeAmounts st0 req spent outs).length ∧
      List.Pairwise (fun x y => y ≤ x) (changeAmounts st0 req spent outs) ∧
      (changeAmounts st0 req spent outs).Perm (splitAmount
        (proofsAmount req.inputs - spent - getProofsFee st0.inputFeePpk req.inputs)) ∧
      (∀ x ∈ changeAmounts st0 req spent outs, ∃ b, x = 2 ^ b) ∧
      (sigs = [] ↔
        (proofsAmount req.inputs - spent - getProofsFee st0.inputFeePpk req.inputs = 0
          ∨ outs = [])) ∧
      (¬ sigs = [] ↔
        (spent + getProofsFee st0.inputFeePpk req.inputs < proofsAmount req.inputs
          ∧ ¬ outs = [])) ∧
      (¬ outs.length < (changeAmounts st0 req spent outs).length →
        (sigs.map ChangeSig.amount).sum
          = proofsAmount req.inputs - spent - getProofsFee st0.inputFeePpk req.inputs)) := by
  obtain ⟨hiff, hspec⟩ := process_ok_change h
  refine ⟨hiff, ?_⟩
  intro outs houts sigs hsigs
  have hs := hspec outs houts sigs hsigs
  refine ⟨?_, ?_, changeAmounts_sorted st0 req spent outs,
    changeAmounts_perm st0 req spent outs, fun x hx => changeAmounts_pow hx, ?_, ?_, ?_⟩
  · rw [hs]
    exact zipSig_amounts _ _
  · rw [hs]
    exact zipSig_secrets _ _
  · rw [hs, zipSig_nil_iff, changeAmounts_nil_iff hsmall]
  · rw [hs, zipSig_nil_iff, changeAmounts_nil_iff hsmall]
    generalize proofsAmount req.inputs = A
    generalize getProofsFee st0.inputFeePpk req.inputs = F
    constructor
    · intro hne
      have h1 : ¬ (A - spent - F = 0) := fun hc => hne (Or.inl hc)
      exact ⟨lt_of_sub_sub_ne_zero h1, fun hc => hne (Or.inr hc)⟩
    · rintro ⟨h1, h2⟩ (h3 | h3)
      · exact sub_sub_eq_zero_of_le h1 h3
      · exact h2 h3
  · intro hlen
    rw [hs, zipSig_amounts, List.take_of_length_le (Nat.le_of_not_lt hlen),
      (changeAmounts_perm st0 req spent outs).sum_eq, splitAmount_sum hsmall]

end CdkMelt

namespace CdkMelt

/-- C6 (amended): when `verify_melt_request` reaches persistence and
`add_proofs` (called with quote binding `None`) fails, the database errors map
exactly: `Duplicate` → `TokenPending`, `AttemptUpdateSpentProof` →
`TokenAlreadySpent`, any other database error → `Database`. -/
theorem C6_db_error_mapping (st0 : MintState) (req : MeltRequest) (amt : Amount)
    (u : CurrencyUnit) (d : DbError)
    (hq : st0.quote.state = MeltQuoteState.Unpaid ∨ st0.quote.state = MeltQuoteState.Failed)
    (hv : verifyInputs req.inputs = Except.ok (amt, some u))
    (hbal : ¬ amt < st0.quote.amount + st0.quote.feeReserve
      + getProofsFee st0.inputFeePpk req.inputs)
    (hdb : addProofs { st0 with quote := { st0.quote with state := MeltQuoteState.Pending } }
        req.inputs none = Except.error d) :
    (verify_melt_request st0 req).1 = Except.error
      (match d with
        | DbError.Duplicate => Error.TokenPending
        | DbError.AttemptUpdateSpentProof => Error.TokenAlreadySpent
        | DbError.Other => Error.Database DbError.Other) := by
  unfold verify_melt_request updateMeltQuoteState
  simp only []
  split
  case h_1 hcontra => rw [hcontra] at hq; rcases hq with h | h <;> cases h
  case h_2 hcontra => rw [hcontra] at hq; rcases hq with h | h <;> cases h
  case h_3 hcontra => rw [hcontra] at hq; rcases hq with h | h <;> cases h
  case h_4 =>
    rw [hv]
    simp only [Option.isNone_some, Bool.false_eq_true, if_false]
    rw [if_neg hbal]
    simp only [hdb]
    cases d <;> rfl

/-- C7: a `get_melt_bolt11_quote` call whose request carries `Mpp` options
while the store already holds a mint quote with the same invoice always fails
(internal multi-part melt is rejected); since `add_melt_quote` runs only on
the `ok` path, no melt quote is persisted. -/
theorem C7_mpp_internal_rejected (env : QuoteEnv) (r : MeltQuoteRequest) (a : Amount)
    (hopts : r.options = some (MeltOptions.mpp a))
    (hmint : env.settings.mintQuoteWithSameRequest = true) :
    ∃ e, get_melt_bolt11_quote env r = Except.error e := by
  unfold get_melt_bolt11_quote requestAmountMsat
  rw [hopts]
  simp only []
  split
  · exact ⟨Error.CannotConvertUnits, rfl⟩
  · split
    · rename_i e heq
      exact ⟨e, rfl⟩
    · rename_i v heq
      exfalso
      unfold check_melt_request_acceptable at heq
      split at heq
      · cases heq
      · split at heq
        · cases heq
        · simp only [hmint] at heq
          cases heq
  
/-- C8: every melt quote successfully created by `get_melt_bolt11_quote` has
`msat_to_pay = options.map amount_msat`: it is `Some` exactly when the request
carried options, in which case it equals the options' msat amount; with no
options it is `None`. -/
theorem C8_msat_to_pay (env : QuoteEnv) (r : MeltQuoteRequest) (q : MeltQuote)
    (h : get_melt_bolt11_quote env r = Except.ok q) :
    q.msatToPay = r.options.map MeltOptions.amountMsat ∧
    (q.msatToPay.isSome ↔ r.options.isSome) ∧
    (∀ o, r.options = some o → q.msatToPay = some o.amountMsat) := by
  unfold get_melt_bolt11_quote at h
  split at h
  · cases h
  · split at h
    · cases h
    · split at h
      · cases h
      · split at h
        · cases h
        · split at h
          · cases h
          · injection h with h1
            have hm : q.msatToPay = r.options.map MeltOptions.amountMsat := by
              rw [← h1]
            refine ⟨hm, ?_, ?_⟩
            · rw [hm]
              cases r.options <;> simp
            · intro o ho
              rw [hm, ho]
              rfl

end CdkMelt

namespace CdkMelt

/-- C2 witness: the amended C2 theorem evaluated on the concrete `c2`
scenario. -/
theorem C2_witness :
    melt_bolt11 c2Env c2St c2Req = (Except.error Error.Internal, c2St1) ∧
    c2St1.quote.state = MeltQuoteState.Pending ∧
    ∀ y ∈ c2Req.inputs.map Proof.y, proofStateOf c2St1 y = ProofState.Pending :=
  C2_no_finalize_on_check_paid c2Env c2St c2St1 c2Req c2Quote c2Ln c2Pay c2Chk none
    (by decide) rfl (by decide) rfl rfl (Or.inr rfl) rfl rfl

/-- C3 witness: the amended C3 theorem evaluated on the concrete `c3b`
scenario (input 10, spent 4, fee 1, one change output). -/
theorem C3_witness :
    ((c3bResp.change.isSome ↔ (4 < proofsAmount c3bReq.inputs ∧ c3bReq.outputs.isSome)) ∧
    (∀ outs, c3bReq.outputs = some outs → ∀ sigs, c3bResp.change = some sigs →
      sigs.map ChangeSig.amount = (changeAmounts c3bSt c3bReq 4 outs).take outs.length ∧
      sigs.map ChangeSig.blindedSecret
        = (outs.map (fun o => o.blindedSecret)).take
            (changeAmounts c3bSt c3bReq 4 outs).length ∧
      List.Pairwise (fun x y => y ≤ x) (changeAmounts c3bSt c3bReq 4 outs) ∧
      (changeAmounts c3bSt c3bReq 4 outs).Perm (splitAmount
        (proofsAmount c3bReq.inputs - 4 - getProofsFee c3bSt.inputFeePpk c3bReq.inputs)) ∧
      (∀ x ∈ changeAmounts c3bSt c3bReq 4 outs, ∃ b, x = 2 ^ b) ∧
      (sigs = [] ↔
        (proofsAmount c3bReq.inputs - 4 - getProofsFee c3bSt.inputFeePpk c3bReq.inputs = 0
          ∨ outs = [])) ∧
      (¬ sigs = [] ↔
        (4 + getProofsFee c3bSt.inputFeePpk c3bReq.inputs < proofsAmount c3bReq.inputs
          ∧ ¬ outs = [])) ∧
      (¬ outs.length < (changeAmounts c3bSt c3bReq 4 outs).length →
        (sigs.map ChangeSig.amount).sum
          = proofsAmount c3bReq.inputs - 4
            - getProofsFee c3bSt.inputFeePpk c3bReq.inputs))) :=
  C3_change_spec c3bSt c3bReq none 4 c3bResp c3bSt2 (by decide) (by decide)

/-- C4 witness: the C4 theorem evaluated on the concrete `c4` scenario, whose
payment attempt resolves through the follow-up check to `Failed`. -/
theorem C4_witness :
    ((c4Chk.status = MeltQuoteState.Failed ∨ c4Chk.status = MeltQuoteState.Unpaid) →
      melt_bolt11 c4Env c4St c4Req
          = (Except.error Error.PaymentFailed, process_unpaid_melt c4St1 c4Req) ∧
        (process_unpaid_melt c4St1 c4Req).quote.state = MeltQuoteState.Unpaid ∧
        ∀ y ∈ c4Req.inputs.map Proof.y,
          proofStateOf (process_unpaid_melt c4St1 c4Req) y = ProofState.Unspent) ∧
    (c4Chk.status = MeltQuoteState.Pending →
      melt_bolt11 c4Env c4St c4Req = (Except.error Error.PendingQuote, c4St1) ∧
        c4St1.quote.state = MeltQuoteState.Pending ∧
        ∀ y ∈ c4Req.inputs.map Proof.y, proofStateOf c4St1 y = ProofState.Pending) :=
  C4_rollback_and_pending c4Env c4St c4St1 c4Req c4Quote c4Ln c4Chk none
    (by decide) rfl (by decide) rfl (by decide)

/-- C5 witness: the C5 theorem evaluated on the concrete `c5` scenario (input
total 8 against a required total of 5). -/
theorem C5_witness :
    ((∃ a b c, (verify_melt_request c5St c5Req).1
        = Except.error (Error.TransactionUnbalanced a b c)) ↔
      8 < c5St.quote.amount + c5St.quote.feeReserve
        + getProofsFee c5St.inputFeePpk c5Req.inputs) :=
  C5_transaction_unbalanced_iff c5St c5Req 8 CurrencyUnit.Sat (Or.inl rfl) (by decide)

/-- C6 witness: the amended C6 theorem evaluated on the concrete `c6b`
scenario, where `add_proofs` fails with `Duplicate`. -/
theorem C6_witness :
    (verify_melt_request c6bSt c6bReq).1 = Except.error Error.TokenPending :=
  C6_db_error_mapping c6bSt c6bReq 8 CurrencyUnit.Sat DbError.Duplicate
    (Or.inl rfl) (by decide) (by decide) (by decide)

/-- C7 witness: the C7 theorem evaluated on the concrete `c7` scenario. -/
theorem C7_witness : ∃ e, get_melt_bolt11_quote c7Env c7R = Except.error e :=
  C7_mpp_internal_rejected c7Env c7R 5000 rfl rfl

/-- C8 witness: the C8 theorem evaluated on the concrete `c8` scenario. -/
theorem C8_witness :
    c8Q.msatToPay = c8R.options.map MeltOptions.amountMsat ∧
    (c8Q.msatToPay.isSome ↔ c8R.options.isSome) ∧
    (∀ o, c8R.options = some o → c8Q.msatToPay = some o.amountMsat) :=
  C8_msat_to_pay c8Env c8R c8Q (by decide)

/-- C9 witness: the C9 theorem evaluated on the concrete `c9` scenario. -/
theorem C9_witness :
    (process_melt_request c9St c9Req none 4).1
        = Except.error Error.BlindedMessageAlreadySigned ∧
    (process_melt_request c9St c9Req none 4).2.quote.state = MeltQuoteState.Paid ∧
    ∀ y ∈ c9Req.inputs.map Proof.y,
      ((lookupProof (process_melt_request c9St c9Req none 4).2.proofDb y).map
        ProofEntry.state) = some ProofState.Spent :=
  C9_finalize_before_change c9St c9Req none 4 [⟨0, 5, CurrencyUnit.Sat⟩]
    (by decide) rfl (by decide) (by decide)

/-- C10 witness: the C10 theorem evaluated on the concrete `c10` scenario
(backend unit `Custom 0`, quote unit `Sat`, conversion fails). -/
theorem C10_witness :
    melt_bolt11 c10Env c10St c10Req
        = process_melt_request c10St1 c10Req c10Pay.paymentProof 0 ∧
    (∀ resp st2,
      process_melt_request c10St1 c10Req c10Pay.paymentProof 0 = (Except.ok resp, st2) →
      ∀ outs, c10Req.outputs = some outs → ∀ sigs, resp.change = some sigs →
        sigs.map ChangeSig.amount = (changeAmounts c10St1 c10Req 0 outs).take outs.length) :=
  C10_conversion_default_zero c10Env c10St c10St1 c10Req c10Quote c10Ln c10Pay none
    (by decide) rfl (by decide) rfl (by decide) rfl rfl (by decide)

end CdkMelt
